import Mathlib

/-!
Shallow embedding of the `lox-interpreter-rs` sources (token.rs, expression.rs,
interpreter.rs, scanner.rs, parser.rs, error.rs, main.rs) and proofs about the
specification claims.

Modelling conventions:
* Rust `f64` number payloads are modelled as rationals (`Rat`); every numeric
  computation exercised below (small-integer addition, comparison of values
  produced by the scanner) is exact in `f64`, so the model agrees with the code
  on those inputs.
* Rust panics (`unwrap`/`panic!`/`unreachable!`, and the usize slicing and
  indexing failures) are explicit outcome constructors.
* The scanner's `String` source is modelled as its list of `Char`s; the byte
  length used by `Scanner::is_at_end` is recovered by summing UTF-8 widths.
* Process-global state (the `ERROR_FLAG` statics of error.rs and of main.rs,
  and the printed diagnostics) is threaded through the state records.
-/

set_option maxHeartbeats 4000000

/-- UTF-8 byte width of a character, as used by Rust `String` storage. -/
def utf8Size (c : Char) : Nat :=
  if c.toNat < 0x80 then 1
  else if c.toNat < 0x800 then 2
  else if c.toNat < 0x10000 then 3
  else 4

/-- Rust `self.source.len()`: the byte length of the source string whose
characters are the given list. -/
def byteLen (source : List Char) : Nat := (source.map utf8Size).sum

/-- token.rs `TokenType`. -/
inductive TokenType where
  | LeftParen | RightParen | LeftBrace | RightBrace
  | Comma | Dot | Minus | Plus | Semicolon | Slash | Star
  | Bang | BangEqual | Equal | EqualEqual
  | Greater | GreaterEqual | Less | LessEqual
  | Identifier | String | Number
  | And | Class | Else | False | Fun | For | If | Nil | Or
  | Print | Return | Super | This | True | Var | While
  | Eof
deriving DecidableEq, Repr

/-- token.rs `Literal`. The `f64` payload of `Number` is modelled as `Rat`. -/
inductive Literal where
  | String (s : String)
  | Number (q : Rat)
  | Boolean (b : Bool)
  | None
deriving DecidableEq, Repr

/-- token.rs `Token`. -/
structure Token where
  token_type : TokenType
  lexeme : String
  literal : Literal
  line : Nat
deriving DecidableEq, Repr

/-- expression.rs `Expression`. -/
inductive Expression where
  | Binary (left : Expression) (operator : Token) (right : Expression)
  | Grouping (expression : Expression)
  | Literal (value : Literal)
  | Unary (operator : Token) (right : Expression)
deriving DecidableEq, Repr

/-- interpreter.rs `Value`. -/
inductive Value where
  | String (s : String)
  | Number (q : Rat)
  | Boolean (b : Bool)
  | Nil
deriving DecidableEq, Repr

/-- interpreter.rs `Value::is_truthy`, exactly as written in the source: strings
and numbers give `false`, `Boolean b` gives `!b`, `Nil` gives `false`. -/
def Value.is_truthy : Value → Bool
  | .String _ | .Number _ => false
  | .Boolean b => !b
  | .Nil => false

/-- Decimal digits of `num / den` (`num < den`), used to render fractional
parts; fuel bounds the number of digits produced. -/
def fracDigits : Nat → Nat → Nat → String
  | 0, _, _ => ""
  | f + 1, num, den =>
    if num = 0 then ""
    else (Nat.digitChar (num * 10 / den)).toString ++ fracDigits f (num * 10 % den) den

/-- Decimal rendering of a rational; models Rust `f64::to_string` on the
terminating decimals the claims touch (integral values print with no point). -/
def ratToString (q : Rat) : String :=
  let sign := if q.num < 0 then "-" else ""
  let n := q.num.natAbs
  if n % q.den = 0 then sign ++ Nat.repr (n / q.den)
  else sign ++ Nat.repr (n / q.den) ++ "." ++ fracDigits 40 (n % q.den) q.den

/-- The single-quote character appearing in the Rust format strings. -/
def squote : String := (Char.ofNat 39).toString

/-- interpreter.rs `impl Display for Value`. -/
def valueDisplay : Value → String
  | .String s => s
  | .Number q => ratToString q
  | .Boolean b => if b then "true" else "false"
  | .Nil => "nil"

/-- token.rs `impl Display for Token` (the two `Debug` renderings are modelled
by `Repr` strings; no claim depends on their exact spelling). -/
def Token.display (t : Token) : String :=
  reprStr t.token_type ++ " " ++ t.lexeme ++ " " ++ reprStr t.literal

/-- interpreter.rs derived `PartialEq for Value`: structural equality over the
union (numbers compare by rational equality in this model). -/
def Value.eqv : Value → Value → Bool
  | .String a, .String b => a == b
  | .Number a, .Number b => a == b
  | .Boolean a, .Boolean b => a == b
  | .Nil, .Nil => true
  | _, _ => false

/-- Which constructor of the `Value` union a value is. -/
def Value.tag : Value → Nat
  | .String _ => 0
  | .Number _ => 1
  | .Boolean _ => 2
  | .Nil => 3

/-- Outcome of interpreter.rs `evaluate`: a value, a `RuntimeError` (message and
operator token), or a panic from an `unreachable!` arm. -/
inductive EvalOut where
  | ok (v : Value)
  | err (message : String) (token : Token)
  | panicked
deriving DecidableEq, Repr

/-- interpreter.rs `Interpreter::check_number_operands`. -/
def check_number_operands (operator : Token) (left right : Value) :
    Except (String × Token) (Rat × Rat) :=
  match left, right with
  | .Number l, .Number r => .ok (l, r)
  | _, _ =>
    .error ("Operands " ++ squote ++ valueDisplay left ++ squote ++ " and " ++ squote ++
      valueDisplay right ++ squote ++ " must both be numbers.", operator)

/-- interpreter.rs `Interpreter::evaluate`. -/
def evaluate : Expression → EvalOut
  | .Binary left operator right =>
    match evaluate left with
    | .err m t => .err m t
    | .panicked => .panicked
    | .ok l =>
      match evaluate right with
      | .err m t => .err m t
      | .panicked => .panicked
      | .ok r =>
        match operator.token_type with
        | .Minus =>
          match check_number_operands operator l r with
          | .ok (a, b) => .ok (.Number (a - b))
          | .error (m, t) => .err m t
        | .Slash =>
          match check_number_operands operator l r with
          | .ok (a, b) => .ok (.Number (a / b))
          | .error (m, t) => .err m t
        | .Star =>
          match check_number_operands operator l r with
          | .ok (a, b) => .ok (.Number (a * b))
          | .error (m, t) => .err m t
        | .Plus =>
          match l, r with
          | .Number a, .Number b => .ok (.Number (a + b))
          | .String a, .String b => .ok (.String (a ++ b))
          | _, _ =>
            .err ("Operands " ++ squote ++ valueDisplay l ++ squote ++ " and " ++ squote ++
              valueDisplay r ++ squote ++ " must both be numbers or strings.") operator
        | .Greater =>
          match check_number_operands operator l r with
          | .ok (a, b) => .ok (.Boolean (decide (a > b)))
          | .error (m, t) => .err m t
        | .GreaterEqual =>
          match check_number_operands operator l r with
          | .ok (a, b) => .ok (.Boolean (decide (a ≥ b)))
          | .error (m, t) => .err m t
        | .Less =>
          match check_number_operands operator l r with
          | .ok (a, b) => .ok (.Boolean (decide (a < b)))
          | .error (m, t) => .err m t
        | .LessEqual =>
          match check_number_operands operator l r with
          | .ok (a, b) => .ok (.Boolean (decide (a ≤ b)))
          | .error (m, t) => .err m t
        | .BangEqual => .ok (.Boolean (!(l.eqv r)))
        | .EqualEqual => .ok (.Boolean (l.eqv r))
        | _ => .panicked
  | .Grouping e => evaluate e
  | .Literal v =>
    match v with
    | .String s => .ok (.String s)
    | .Number n => .ok (.Number n)
    | .Boolean b => .ok (.Boolean b)
    | .None => .ok .Nil
  | .Unary operator right =>
    match evaluate right with
    | .err m t => .err m t
    | .panicked => .panicked
    | .ok rv =>
      match operator.token_type with
      | .Bang => .ok (.Boolean (!rv.is_truthy))
      | .Minus =>
        match rv with
        | .Number n => .ok (.Number (-n))
        | _ =>
          .err ("Operand " ++ squote ++ valueDisplay rv ++ squote ++
            " must be a number to apply " ++ squote ++ operator.display ++ squote ++
            " operator") operator
      | _ => .panicked

/-- A Bang token, as the scanner would emit for `!`. -/
def bangTok : Token := ⟨.Bang, "!", .None, 1⟩

/-- A Plus token, as the scanner would emit for `+`. -/
def plusTok : Token := ⟨.Plus, "+", .None, 1⟩

/-- An EqualEqual token, as the scanner would emit for `==`. -/
def eqeqTok : Token := ⟨.EqualEqual, "==", .None, 1⟩

/-- Numeric value of a decimal digit character. -/
def digitVal (c : Char) : Nat := c.toNat - 48

/-- Value of a run of decimal digit characters. -/
def digitsVal (l : List Char) : Nat := l.foldl (fun a c => a * 10 + digitVal c) 0

/-- scanner.rs `number_slice.parse::<f64>()`, modelled exactly on the lexemes
the scanner produces (`digits` or `digits.digits`); the result is the rational
value of the decimal literal. -/
def strToRat (s : String) : Rat :=
  match s.toList.splitOn '.' with
  | [ip] => (digitsVal ip : Rat)
  | [ip, fp] => (digitsVal ip : Rat) + (digitsVal fp : Rat) / ((10 : Rat) ^ fp.length)
  | _ => 0

/-- The scanner's number parse sends the lexeme `1` to the rational 1. -/
theorem strToRat_one : strToRat "1" = 1 := by
  rw [strToRat, show "1".toList.splitOn '.' = [['1']] from rfl]
  norm_num [show digitsVal ['1'] = 1 from rfl]

/-- The scanner's number parse sends the lexeme `1.0` to the rational 1. -/
theorem strToRat_onePointZero : strToRat "1.0" = 1 := by
  rw [strToRat, show "1.0".toList.splitOn '.' = [['1'], ['0']] from rfl]
  norm_num [show digitsVal ['1'] = 1 from rfl, show digitsVal ['0'] = 0 from rfl]

/-- The `Binary "+"` behaviour exactly as the specification words it: numeric
addition when both operands are numbers, concatenation when both are strings,
otherwise a runtime error naming both operand values. -/
def plusSpec (operator : Token) : Value → Value → EvalOut
  | .Number a, .Number b => .ok (.Number (a + b))
  | .String a, .String b => .ok (.String (a ++ b))
  | l, r =>
    .err ("Operands " ++ squote ++ valueDisplay l ++ squote ++ " and " ++ squote ++
      valueDisplay r ++ squote ++ " must both be numbers or strings.") operator

/-- C1 (code_bug evidence): the claim says `Unary "!"` negates truthiness with
exactly `Nil` and `Boolean(false)` falsy, so `!0`, `!""` and `!true` must all be
`Boolean(false)`; the code's `is_truthy` is inverted for booleans and returns
`false` for strings and numbers, so all three evaluate to `Boolean(true)`
(only `!nil` agrees with the claim). -/
theorem c1_bang_truthiness_code_bug :
    evaluate (.Unary bangTok (.Literal (.Number 0))) = .ok (.Boolean true)
  ∧ evaluate (.Unary bangTok (.Literal (.String ""))) = .ok (.Boolean true)
  ∧ evaluate (.Unary bangTok (.Literal (.Boolean true))) = .ok (.Boolean true)
  ∧ evaluate (.Unary bangTok (.Literal (.Boolean false))) = .ok (.Boolean false)
  ∧ evaluate (.Unary bangTok (.Literal .None)) = .ok (.Boolean true)
  ∧ Value.is_truthy (.Boolean true) = false
  ∧ Value.is_truthy (.Number 0) = false :=
  ⟨rfl, rfl, rfl, rfl, rfl, rfl, rfl⟩

/-- C5: `Binary "+"` adds two numbers, concatenates two strings, and raises a
runtime error naming both operand values on any other combination; in
particular `"a" + "b"` gives `String "ab"`, `1 + 2` gives `Number 3`, and
`"a" + 1` is a runtime error. -/
theorem c5_plus_semantics :
    (∀ (op : Token) (e1 e2 : Expression) (v1 v2 : Value), op.token_type = .Plus →
      evaluate e1 = .ok v1 → evaluate e2 = .ok v2 →
      evaluate (.Binary e1 op e2) = plusSpec op v1 v2)
  ∧ evaluate (.Binary (.Literal (.String "a")) plusTok (.Literal (.String "b"))) =
      .ok (.String "ab")
  ∧ evaluate (.Binary (.Literal (.Number 1)) plusTok (.Literal (.Number 2))) =
      .ok (.Number 3)
  ∧ evaluate (.Binary (.Literal (.String "a")) plusTok (.Literal (.Number 1))) =
      .err ("Operands " ++ squote ++ "a" ++ squote ++ " and " ++ squote ++ "1" ++
        squote ++ " must both be numbers or strings.") plusTok := by
  refine ⟨?_, rfl, ?_, rfl⟩
  · intro op e1 e2 v1 v2 hop h1 h2
    simp only [evaluate, h1, h2, hop]
    cases v1 <;> cases v2 <;> rfl
  · simp only [evaluate, plusTok]
    norm_num

/-- C5 witness: the universal part applied at `2 + 5`. -/
theorem c5_plus_semantics_witness :
    evaluate (.Binary (.Literal (.Number 2)) plusTok (.Literal (.Number 5))) =
      plusSpec plusTok (.Number 2) (.Number 5) :=
  c5_plus_semantics.1 plusTok (.Literal (.Number 2)) (.Literal (.Number 5))
    (.Number 2) (.Number 5) rfl rfl rfl

/-- C6: `==` and `!=` never produce a runtime error on evaluated operands,
compare structurally over the value union with no coercion (values of different
variants are never equal), `!=` is the negation of `==`, and concretely
`1 == "1"` is `Boolean false` while `1 == 1.0` is `Boolean true` (the operand
rationals coming from the scanner's number parser). -/
theorem c6_equality_semantics :
    (∀ (op : Token) (e1 e2 : Expression) (v1 v2 : Value),
        evaluate e1 = .ok v1 → evaluate e2 = .ok v2 →
        (op.token_type = .EqualEqual →
          evaluate (.Binary e1 op e2) = .ok (.Boolean (v1.eqv v2)))
      ∧ (op.token_type = .BangEqual →
          evaluate (.Binary e1 op e2) = .ok (.Boolean (!(v1.eqv v2)))))
  ∧ (∀ v1 v2 : Value, v1.eqv v2 = true ↔ v1 = v2)
  ∧ (∀ v1 v2 : Value, v1.tag ≠ v2.tag → v1.eqv v2 = false)
  ∧ evaluate (.Binary (.Literal (.Number (strToRat "1"))) eqeqTok
      (.Literal (.String "1"))) = .ok (.Boolean false)
  ∧ evaluate (.Binary (.Literal (.Number (strToRat "1"))) eqeqTok
      (.Literal (.Number (strToRat "1.0")))) = .ok (.Boolean true) := by
  refine ⟨?_, ?_, ?_, rfl, ?_⟩
  · intro op e1 e2 v1 v2 h1 h2
    constructor <;> intro hop <;> simp only [evaluate, h1, h2, hop]
  · intro v1 v2
    cases v1 <;> cases v2 <;> simp [Value.eqv]
  · intro v1 v2 h
    cases v1 <;> cases v2 <;> simp [Value.eqv] <;> simp [Value.tag] at h
  · simp [evaluate, eqeqTok, Value.eqv, strToRat_one, strToRat_onePointZero]

/-- C6 witness: the universal part applied at `true == nil`. -/
theorem c6_equality_semantics_witness :
    evaluate (.Binary (.Literal (.Boolean true)) eqeqTok (.Literal .None)) =
      .ok (.Boolean ((Value.Boolean true).eqv .Nil)) :=
  ((c6_equality_semantics.1 eqeqTok (.Literal (.Boolean true)) (.Literal .None)
    (.Boolean true) .Nil rfl rfl).1) rfl

/-- parser.rs `Parser`, together with the process-global state its error path
touches: parser.rs reports through `crate::report_error`, which is main.rs
`report_error`, so `main_diags` records those diagnostics (line, location
qualifier, message) and `main_error_flag` is main.rs `ERROR_FLAG`. -/
structure Parser where
  tokens : List Token
  current : Nat
  main_diags : List (Nat × Option String × String)
  main_error_flag : Bool
deriving DecidableEq, Repr

/-- Outcome of a parser routine: `Ok`, `Err(ParseError)` (its message), a panic
(out-of-bounds `tokens.get` unwrap), or fuel exhaustion. The Rust functions
carry no fuel; `nofuel` only marks where the model's recursion budget ran out,
and every terminating claim below is proved with ample fuel. -/
inductive POut (α : Type) where
  | ok (a : α) (st : Parser)
  | err (message : String) (st : Parser)
  | panicked (st : Parser)
  | nofuel
deriving DecidableEq

/-- parser.rs `GenericScanner::peek` for `Parser` (`none` models the panic in
the `unwrap_or_else`). -/
def Parser.peek (st : Parser) : Option Token := st.tokens[st.current]?

/-- parser.rs `Parser::peek_previous` (the debug `println!` is ignored; `none`
models both the usize underflow at `current = 0` and the out-of-bounds panic). -/
def Parser.peek_previous (st : Parser) : Option Token :=
  if st.current = 0 then none else st.tokens[st.current - 1]?

/-- parser.rs `GenericScanner::is_at_end` for `Parser` (calls `peek`, so it can
panic). -/
def Parser.is_at_end (st : Parser) : Option Bool :=
  (st.peek).map (fun t => decide (t.token_type = .Eof))

/-- parser.rs `GenericScanner::consume` for `Parser`. -/
def Parser.consume (st : Parser) : Option (Token × Parser) :=
  (st.peek).map (fun t => (t, { st with current := st.current + 1 }))

/-- parser.rs `GenericScanner::check_and_consume` for `Parser`: if the current
token's type is one of the expected, consume it. -/
def Parser.check_and_consume (st : Parser) (expected : List TokenType) :
    Option (Bool × Parser) :=
  (st.peek).map (fun t =>
    if expected.any (fun e => decide (t.token_type = e)) then
      (true, { st with current := st.current + 1 })
    else (false, st))

mutual

/-- parser.rs `Parser::parse_expression`. -/
def parse_expression : Nat → Parser → POut Expression
  | 0, _ => .nofuel
  | f + 1, st => parse_equality f st

/-- parser.rs `Parser::parse_equality`. -/
def parse_equality : Nat → Parser → POut Expression
  | 0, _ => .nofuel
  | f + 1, st =>
    match parse_comparison f st with
    | .ok e st => equality_loop f e st
    | .err m s => .err m s
    | .panicked s => .panicked s
    | .nofuel => .nofuel

/-- The `while check_and_consume([BangEqual, EqualEqual])` loop of
`parse_equality`, folding into left-nested `Binary` nodes. -/
def equality_loop : Nat → Expression → Parser → POut Expression
  | 0, _, _ => .nofuel
  | f + 1, expression, st =>
    match st.check_and_consume [.BangEqual, .EqualEqual] with
    | none => .panicked st
    | some (false, st) => .ok expression st
    | some (true, st) =>
      match st.peek_previous with
      | none => .panicked st
      | some operator =>
        match parse_comparison f st with
        | .ok right st => equality_loop f (.Binary expression operator right) st
        | .err m s => .err m s
        | .panicked s => .panicked s
        | .nofuel => .nofuel

/-- parser.rs `Parser::parse_comparison`. -/
def parse_comparison : Nat → Parser → POut Expression
  | 0, _ => .nofuel
  | f + 1, st =>
    match parse_term f st with
    | .ok e st => comparison_loop f e st
    | .err m s => .err m s
    | .panicked s => .panicked s
    | .nofuel => .nofuel

/-- The `while check_and_consume([Greater, GreaterEqual, Less, LessEqual])`
loop of `parse_comparison`. -/
def comparison_loop : Nat → Expression → Parser → POut Expression
  | 0, _, _ => .nofuel
  | f + 1, expression, st =>
    match st.check_and_consume [.Greater, .GreaterEqual, .Less, .LessEqual] with
    | none => .panicked st
    | some (false, st) => .ok expression st
    | some (true, st) =>
      match st.peek_previous with
      | none => .panicked st
      | some operator =>
        match parse_term f st with
        | .ok right st => comparison_loop f (.Binary expression operator right) st
        | .err m s => .err m s
        | .panicked s => .panicked s
        | .nofuel => .nofuel

/-- parser.rs `Parser::parse_term`. -/
def parse_term : Nat → Parser → POut Expression
  | 0, _ => .nofuel
  | f + 1, st =>
    match parse_factor f st with
    | .ok e st => term_loop f e st
    | .err m s => .err m s
    | .panicked s => .panicked s
    | .nofuel => .nofuel

/-- The `while check_and_consume([Plus, Minus])` loop of `parse_term`. -/
def term_loop : Nat → Expression → Parser → POut Expression
  | 0, _, _ => .nofuel
  | f + 1, expression, st =>
    match st.check_and_consume [.Plus, .Minus] with
    | none => .panicked st
    | some (false, st) => .ok expression st
    | some (true, st) =>
      match st.peek_previous with
      | none => .panicked st
      | some operator =>
        match parse_factor f st with
        | .ok right st => term_loop f (.Binary expression operator right) st
        | .err m s => .err m s
        | .panicked s => .panicked s
        | .nofuel => .nofuel

/-- parser.rs `Parser::parse_factor`. -/
def parse_factor : Nat → Parser → POut Expression
  | 0, _ => .nofuel
  | f + 1, st =>
    match parse_unary f st with
    | .ok e st => factor_loop f e st
    | .err m s => .err m s
    | .panicked s => .panicked s
    | .nofuel => .nofuel

/-- The `while check_and_consume([Slash, Star])` loop of `parse_factor`. -/
def factor_loop : Nat → Expression → Parser → POut Expression
  | 0, _, _ => .nofuel
  | f + 1, expression, st =>
    match st.check_and_consume [.Slash, .Star] with
    | none => .panicked st
    | some (false, st) => .ok expression st
    | some (true, st) =>
      match st.peek_previous with
      | none => .panicked st
      | some operator =>
        match parse_unary f st with
        | .ok right st => factor_loop f (.Binary expression operator right) st
        | .err m s => .err m s
        | .panicked s => .panicked s
        | .nofuel => .nofuel

/-- parser.rs `Parser::parse_unary`. -/
def parse_unary : Nat → Parser → POut Expression
  | 0, _ => .nofuel
  | f + 1, st =>
    match st.check_and_consume [.Bang, .Minus] with
    | none => .panicked st
    | some (true, st) =>
      match st.peek_previous with
      | none => .panicked st
      | some operator =>
        match parse_unary f st with
        | .ok right st => .ok (.Unary operator right) st
        | .err m s => .err m s
        | .panicked s => .panicked s
        | .nofuel => .nofuel
    | some (false, st) => parse_literal_or_group f st

/-- parser.rs `Parser::parse_literal_or_group`. Note that the `LeftParen` arm
runs `parse_expression` without first consuming the `(` (exactly as the source
does), and that a successful `match_result` is followed by one `consume`. -/
def parse_literal_or_group : Nat → Parser → POut Expression
  | 0, _ => .nofuel
  | f + 1, st =>
    match st.peek with
    | none => .panicked st
    | some tok =>
      let curr_literal := tok.literal
      match tok.token_type with
      | .False =>
        match curr_literal with
        | .Boolean b => lit_or_group_finish (Expression.Literal (.Boolean b)) st
        | _ =>
          .err ("Failed to convert literal " ++ reprStr curr_literal ++ " to boolean.") st
      | .True =>
        match curr_literal with
        | .Boolean b => lit_or_group_finish (Expression.Literal (.Boolean b)) st
        | _ =>
          .err ("Failed to convert literal " ++ reprStr curr_literal ++ " to boolean.") st
      | .Nil => lit_or_group_finish (Expression.Literal .None) st
      | .Number =>
        match curr_literal with
        | .Number num => lit_or_group_finish (Expression.Literal (.Number num)) st
        | _ =>
          .err ("Failed to convert literal " ++ reprStr curr_literal ++ " to number.") st
      | .String =>
        match curr_literal with
        | .String str => lit_or_group_finish (Expression.Literal (.String str)) st
        | _ =>
          .err ("Failed to convert literal " ++ reprStr curr_literal ++ " to string.") st
      | .LeftParen =>
        match parse_expression f st with
        | .ok expression st =>
          match st.check_and_consume [.RightParen] with
          | none => .panicked st
          | some (true, st) => lit_or_group_finish (Expression.Grouping expression) st
          | some (false, st) =>
            .err ("Expected " ++ squote ++ ")" ++ squote ++ " after expression.") st
        | .err m s => .err m s
        | .panicked s => .panicked s
        | .nofuel => .nofuel
      | _ => .err ("Token " ++ tok.display ++ " parsing was unhandled.") st

/-- The `if match_result.is_ok() { self.consume(); }` tail of
`parse_literal_or_group`, applied to an `Ok` match result. -/
def lit_or_group_finish (e : Expression) (st : Parser) : POut Expression :=
  match st.consume with
  | none => .panicked st
  | some (_, st) => .ok e st

end

/-- parser.rs `Parser::parse_error`: route the diagnostic through main.rs
`report_error`, qualifying the location with `at end of input` for the Eof
token and with the lexeme otherwise; the report sets main.rs `ERROR_FLAG`. -/
def parse_error (token : Token) (message : String) (st : Parser) : Parser :=
  if token.token_type = .Eof then
    { st with
      main_diags := st.main_diags ++ [(token.line, some "at end of input", message)],
      main_error_flag := true }
  else
    { st with
      main_diags :=
        st.main_diags ++ [(token.line, some ("at " ++ squote ++ token.lexeme ++ squote), message)],
      main_error_flag := true }

/-- The `while !is_at_end()` loop of parser.rs `Parser::synchronise`. -/
def synchronise_loop : Nat → Parser → POut Unit
  | 0, _ => .nofuel
  | f + 1, st =>
    match st.is_at_end with
    | none => .panicked st
    | some true => .ok () st
    | some false =>
      match st.peek_previous with
      | none => .panicked st
      | some prev =>
        if prev.token_type = .Semicolon then .ok () st
        else
          match st.peek with
          | none => .panicked st
          | some t =>
            match t.token_type with
            | .Class | .Fun | .Var | .For | .If | .While | .Print | .Return => .ok () st
            | _ =>
              match st.consume with
              | none => .panicked st
              | some (_, st) => synchronise_loop f st

/-- parser.rs `Parser::synchronise`: consume one token, then discard tokens
until a statement boundary. -/
def synchronise (f : Nat) (st : Parser) : POut Unit :=
  match st.consume with
  | none => .panicked st
  | some (_, st) => synchronise_loop f st

/-- parser.rs `Parser::parse`: `Some` tree on success; on a parse error report
one diagnostic via `parse_error(self.peek(), ..)`, run `synchronise`, and
return `None`. -/
def Parser.parse (f : Nat) (st : Parser) : POut (Option Expression) :=
  match parse_expression f st with
  | .ok expression st => .ok (some expression) st
  | .err message st =>
    match st.peek with
    | none => .panicked st
    | some tok =>
      match synchronise f (parse_error tok message st) with
      | .ok _ st => .ok none st
      | .err m s => .err m s
      | .panicked s => .panicked s
      | .nofuel => .nofuel
  | .panicked s => .panicked s
  | .nofuel => .nofuel

/-- A Number token carrying the given value, as the scanner emits. -/
def numTok (q : Rat) : Token := ⟨.Number, "n", .Number q, 1⟩

/-- The Eof token the scanner appends. -/
def eofTok : Token := ⟨.Eof, "", .None, 1⟩

/-- A Star token. -/
def starTok : Token := ⟨.Star, "*", .None, 1⟩

/-- Initial parser state over a token list (`Parser::new`), with main.rs
`ERROR_FLAG` clear and no diagnostics printed yet. -/
def pInit (ts : List Token) : Parser := ⟨ts, 0, [], false⟩

/-- Whether a parser outcome is a panic. -/
def POut.isPanicked {α : Type} : POut α → Bool
  | .panicked _ => true
  | _ => false

/-- The parser state carried in an outcome, if any. -/
def POut.pstate {α : Type} : POut α → Option Parser
  | .ok _ st => some st
  | .err _ st => some st
  | .panicked st => some st
  | .nofuel => none

/-- The expression returned by `Parser::parse`, when it returned one. -/
def POut.parsedExpr : POut (Option Expression) → Option (Option Expression)
  | .ok oe _ => some oe
  | _ => none

/-- C3 (code_bug evidence): the claim says that on every syntax error —
including one at the Eof token, e.g. the tokens of `1 +` — `parse` reports one
diagnostic, runs `synchronise`, and returns `None` without panicking. On
`1 +` the code reports the diagnostic, but `synchronise` consumes the Eof token
and the following `is_at_end`/`peek` indexes past the end of the token vector
and panics. On an error away from Eof (the tokens of `+ 1`) the claimed
behaviour does hold: one diagnostic and an `Ok(None)` return. -/
theorem c3_parse_eof_error_code_bug :
    (Parser.parse 50 (pInit [numTok 1, plusTok, eofTok])).isPanicked = true
  ∧ (Parser.parse 50 (pInit [numTok 1, plusTok, eofTok])).pstate.map
      (fun st => (st.main_diags.length, st.main_error_flag)) = some (1, true)
  ∧ (Parser.parse 50 (pInit [plusTok, numTok 1, eofTok])).parsedExpr = some none
  ∧ (Parser.parse 50 (pInit [plusTok, numTok 1, eofTok])).pstate.map
      (fun st => (st.main_diags.length, st.main_error_flag)) = some (1, true) :=
  ⟨rfl, rfl, rfl, rfl⟩

/-- Primary literal operands: the atoms of `parse_literal_or_group` other than
groupings. -/
inductive Prim where
  | num (q : Rat)
  | str (s : String)
  | tru
  | fls
  | nl
deriving DecidableEq, Repr

/-- The token the scanner emits for a primary literal operand. -/
def primTok : Prim → Token
  | .num q => ⟨.Number, "n", .Number q, 1⟩
  | .str s => ⟨.String, "s", .String s, 1⟩
  | .tru => ⟨.True, "true", .Boolean true, 1⟩
  | .fls => ⟨.False, "false", .Boolean false, 1⟩
  | .nl => ⟨.Nil, "nil", .None, 1⟩

/-- The expression `parse_literal_or_group` builds for a primary literal
operand. -/
def primExpr : Prim → Expression
  | .num q => .Literal (.Number q)
  | .str s => .Literal (.String s)
  | .tru => .Literal (.Boolean true)
  | .fls => .Literal (.Boolean false)
  | .nl => .Literal .None

/-- The tokens of `1 == 2 + 2 * 3`: the subexpression `a` of the claim is
`1 == 2`, `b` is `2` and `c` is `3`. -/
def c4_tokens : List Token :=
  [numTok 1, eqeqTok, numTok 2, plusTok, numTok 2, starTok, numTok 3, eofTok]

/-- C4 counterexample: the claim quantifies over all subexpressions `a`, `b`,
`c`; taking `a` to be the subexpression `1 == 2` (tokens `1 == 2 + 2 * 3`),
parsing does not produce `Binary(+, a, Binary(*, b, c))` — the `+` folds into
the right-hand side of the `==` instead. -/
theorem c4_subexpression_counterexample :
    (Parser.parse 50 (pInit c4_tokens)).parsedExpr =
      some (some (.Binary (.Literal (.Number 1)) eqeqTok
        (.Binary (.Literal (.Number 2)) plusTok
          (.Binary (.Literal (.Number 2)) starTok (.Literal (.Number 3))))))
  ∧ ¬ (Parser.parse 50 (pInit c4_tokens)).parsedExpr =
      some (some (.Binary
        (.Binary (.Literal (.Number 1)) eqeqTok (.Literal (.Number 2))) plusTok
        (.Binary (.Literal (.Number 2)) starTok (.Literal (.Number 3))))) := by
  refine ⟨rfl, fun h => ?_⟩
  rw [show (Parser.parse 50 (pInit c4_tokens)).parsedExpr =
      some (some (.Binary (.Literal (.Number 1)) eqeqTok
        (.Binary (.Literal (.Number 2)) plusTok
          (.Binary (.Literal (.Number 2)) starTok (.Literal (.Number 3)))))) from rfl] at h
  simp at h

/-- C4 (amended): for all primary literal operands `a`, `b`, `c` (number,
string, true, false, nil), `a + b * c` parses as `Binary(+, a, Binary(*, b,
c))` and never as `Binary(*, Binary(+, a, b), c)`; each precedence level parses
its next-higher level first (`a * b + c` parses as `Binary(+, Binary(*, a, b),
c)`), and repeated operators of one level fold left-associatively with the
previously parsed expression as left child (`a + b + c` parses as
`Binary(+, Binary(+, a, b), c)`). -/
theorem c4_precedence_amended :
    (∀ p1 p2 p3 : Prim, ∃ st,
      Parser.parse 50 (pInit [primTok p1, plusTok, primTok p2, starTok, primTok p3, eofTok]) =
        .ok (some (.Binary (primExpr p1) plusTok
          (.Binary (primExpr p2) starTok (primExpr p3)))) st)
  ∧ (∀ p1 p2 p3 : Prim, ∃ st,
      Parser.parse 50 (pInit [primTok p1, starTok, primTok p2, plusTok, primTok p3, eofTok]) =
        .ok (some (.Binary (.Binary (primExpr p1) starTok (primExpr p2)) plusTok
          (primExpr p3))) st)
  ∧ (∀ p1 p2 p3 : Prim, ∃ st,
      Parser.parse 50 (pInit [primTok p1, plusTok, primTok p2, plusTok, primTok p3, eofTok]) =
        .ok (some (.Binary (.Binary (primExpr p1) plusTok (primExpr p2)) plusTok
          (primExpr p3))) st) := by
  refine ⟨?_, ?_, ?_⟩ <;> intro p1 p2 p3 <;>
    cases p1 <;> cases p2 <;> cases p3 <;> exact ⟨_, rfl⟩

/-- scanner.rs `Scanner`, together with the error.rs globals its reports touch
(scanner.rs reports through `crate::error::lox_generic_error`): `diags` records
the (line, message) diagnostics and `err_flag` is error.rs `ERROR_FLAG`. The
source string is modelled by its character list; byte positions are recovered
through `byteLen`. -/
structure Scanner where
  source : List Char
  tokens : List Token
  start : Nat
  current : Nat
  line : Nat
  diags : List (Nat × String)
  err_flag : Bool
deriving DecidableEq, Repr

/-- Outcome of a scanner routine: success, or a panic (the `unwrap_or_else`
in `get_nth_char` and, for non-ASCII sources, byte slicing); the panicked state
is the state at the failing call. -/
inductive ScanOut (α : Type) where
  | ok (a : α) (st : Scanner)
  | panicked (st : Scanner)
deriving DecidableEq

/-- scanner.rs `Scanner::get_nth_char`: `source.chars().nth(n)`; `none` models
the panic. -/
def Scanner.get_nth_char (st : Scanner) (n : Nat) : Option Char := st.source[n]?

/-- scanner.rs `Scanner::get_current_char`. -/
def Scanner.get_current_char (st : Scanner) : Option Char := st.get_nth_char st.current

/-- scanner.rs `GenericScanner::is_at_end` for `Scanner`: compares the
character-count cursor `current` against the byte length `source.len()`. -/
def Scanner.is_at_end (st : Scanner) : Bool := byteLen st.source ≤ st.current

/-- scanner.rs `GenericScanner::consume` for `Scanner`. -/
def Scanner.consume (st : Scanner) : ScanOut Char :=
  match st.get_current_char with
  | some c => .ok c { st with current := st.current + 1 }
  | none => .panicked st

/-- scanner.rs `GenericScanner::check_and_consume` for `Scanner`: false when at
end or when any expected character differs from the current one (the scanner
only ever passes singleton slices). -/
def Scanner.check_and_consume (st : Scanner) (expected : List Char) : ScanOut Bool :=
  if st.is_at_end then .ok false st
  else
    match st.get_current_char with
    | none => .panicked st
    | some c =>
      if expected.any (fun e => decide (c ≠ e)) then .ok false st
      else .ok true { st with current := st.current + 1 }

/-- scanner.rs `GenericScanner::peek` for `Scanner`: NUL at end of input,
otherwise the current character (`none` models the panic inside
`get_current_char`). -/
def Scanner.peek (st : Scanner) : Option Char :=
  if st.is_at_end then some (Char.ofNat 0) else st.get_current_char

/-- scanner.rs `GenericScanner::peek_next` for `Scanner`. -/
def Scanner.peek_next (st : Scanner) : Option Char :=
  if byteLen st.source ≤ st.current + 1 then some (Char.ofNat 0)
  else st.get_nth_char (st.current + 1)

/-- error.rs `lox_generic_error` / `report_error` as called from the scanner:
print the diagnostic and set error.rs `ERROR_FLAG`. -/
def Scanner.lox_generic_error (st : Scanner) (line : Nat) (message : String) : Scanner :=
  { st with diags := st.diags ++ [(line, message)], err_flag := true }

/-- Rust `&self.source[a..b]` (byte range; on the ASCII sources on which the
scanner completes, byte and character indices agree). -/
def sliceStr (source : List Char) (a b : Nat) : String :=
  String.mk ((source.drop a).take (b - a))

/-- scanner.rs `Scanner::add_token_with_value`: push a token whose lexeme is
`source[start..current]` and whose line is the scanner's current line. -/
def Scanner.add_token_with_value (st : Scanner) (token_type : TokenType)
    (literal : Literal) : Scanner :=
  { st with tokens :=
      st.tokens ++ [⟨token_type, sliceStr st.source st.start st.current, literal, st.line⟩] }

/-- scanner.rs `Scanner::add_token`. -/
def Scanner.add_token (st : Scanner) (token_type : TokenType) : Scanner :=
  st.add_token_with_value token_type .None

/-- scanner.rs `KEYWORDS` (the `lazy_static` HashMap, modelled as an
association list in insertion order). -/
def KEYWORDS : List (String × TokenType) :=
  [("and", .And), ("class", .Class), ("else", .Else), ("false", .False),
   ("for", .For), ("fun", .Fun), ("if", .If), ("nil", .Nil), ("or", .Or),
   ("print", .Print), ("return", .Return), ("super", .Super), ("this", .This),
   ("true", .True), ("var", .Var), ("while", .While)]

/-- scanner.rs `Scanner::is_valid_identifier_char`. -/
def is_valid_identifier_char (c : Char) : Bool := c.isAlphanum || c = '_'

/-- The comment loop of `scan_token`'s `/` arm: `while peek() != newline and
not at end, consume` (at end, peek is NUL and the end test stops the loop, so
testing the end first is equivalent). -/
def Scanner.comment_loop (st : Scanner) : ScanOut Unit :=
  if _h : byteLen st.source ≤ st.current then .ok () st
  else
    match st.source[st.current]? with
    | none => .panicked st
    | some c =>
      if c = '\n' then .ok () st
      else Scanner.comment_loop { st with current := st.current + 1 }
termination_by byteLen st.source - st.current
decreasing_by simp_wf; omega

/-- The loop of `parse_string`: consume up to the closing quote or the end of
input, bumping `line` at each newline. -/
def Scanner.string_loop (st : Scanner) : ScanOut Unit :=
  if _h : byteLen st.source ≤ st.current then .ok () st
  else
    match st.source[st.current]? with
    | none => .panicked st
    | some c =>
      if c = '"' then .ok () st
      else
        Scanner.string_loop
          { st with current := st.current + 1,
                    line := if c = '\n' then st.line + 1 else st.line }
termination_by byteLen st.source - st.current
decreasing_by simp_wf; omega

/-- The digit loops of `parse_number`: `while peek().is_ascii_digit(),
consume` (at end, peek is NUL, which is not a digit). -/
def Scanner.digits_loop (st : Scanner) : ScanOut Unit :=
  if _h : byteLen st.source ≤ st.current then .ok () st
  else
    match st.source[st.current]? with
    | none => .panicked st
    | some c =>
      if c.isDigit then Scanner.digits_loop { st with current := st.current + 1 }
      else .ok () st
termination_by byteLen st.source - st.current
decreasing_by simp_wf; omega

/-- The loop of `parse_identifier`: `while is_valid_identifier_char(peek()),
consume` (at end, peek is NUL, which is not an identifier character). -/
def Scanner.ident_loop (st : Scanner) : ScanOut Unit :=
  if _h : byteLen st.source ≤ st.current then .ok () st
  else
    match st.source[st.current]? with
    | none => .panicked st
    | some c =>
      if is_valid_identifier_char c then
        Scanner.ident_loop { st with current := st.current + 1 }
      else .ok () st
termination_by byteLen st.source - st.current
decreasing_by simp_wf; omega

/-- scanner.rs `Scanner::parse_string`, exactly as written: after the
unterminated-string report it still falls through to `consume` the closing
quote (which panics at end of input), then emits the String token with the
quotes trimmed off. -/
def Scanner.parse_string (st : Scanner) : ScanOut Unit :=
  match st.string_loop with
  | .panicked s => .panicked s
  | .ok _ st =>
    match (if st.is_at_end then st.lox_generic_error st.line "Unterminated string."
           else st).consume with
    | .panicked s => .panicked s
    | .ok _ st =>
      .ok () (st.add_token_with_value .String
        (.String (sliceStr st.source (st.start + 1) (st.current - 1))))

/-- The tail of `parse_number`: slice the lexeme, parse it (the `f64` parse is
modelled by `strToRat`; it cannot fail on the scanner's lexemes), emit the
Number token. -/
def Scanner.finish_number (st : Scanner) : Scanner :=
  st.add_token_with_value .Number (.Number (strToRat (sliceStr st.source st.start st.current)))

/-- scanner.rs `Scanner::parse_number`. -/
def Scanner.parse_number (st : Scanner) : ScanOut Unit :=
  match st.digits_loop with
  | .panicked s => .panicked s
  | .ok _ st =>
    match st.peek with
    | none => .panicked st
    | some c =>
      if c = '.' then
        match st.peek_next with
        | none => .panicked st
        | some c2 =>
          if c2.isDigit then
            match st.consume with
            | .panicked s => .panicked s
            | .ok _ st =>
              match st.digits_loop with
              | .panicked s => .panicked s
              | .ok _ st => .ok () st.finish_number
          else .ok () st.finish_number
      else .ok () st.finish_number

/-- scanner.rs `Scanner::parse_identifier`. -/
def Scanner.parse_identifier (st : Scanner) : ScanOut Unit :=
  match st.ident_loop with
  | .panicked s => .panicked s
  | .ok _ st =>
    match (KEYWORDS.lookup (sliceStr st.source st.start st.current)).getD .Identifier with
    | .True => .ok () (st.add_token_with_value .True (.Boolean true))
    | .False => .ok () (st.add_token_with_value .False (.Boolean false))
    | tt => .ok () (st.add_token tt)

/-- scanner.rs `Scanner::scan_token` (the Rust `match` on the consumed
character, written as the equivalent ordered comparison chain; the brace
characters are written via their code points). -/
def Scanner.scan_token (st : Scanner) : ScanOut Unit :=
  match st.consume with
  | .panicked s => .panicked s
  | .ok c st =>
    if c = '(' then .ok () (st.add_token .LeftParen)
    else if c = ')' then .ok () (st.add_token .RightParen)
    else if c = Char.ofNat 123 then .ok () (st.add_token .LeftBrace)
    else if c = Char.ofNat 125 then .ok () (st.add_token .RightBrace)
    else if c = ',' then .ok () (st.add_token .Comma)
    else if c = '-' then .ok () (st.add_token .Minus)
    else if c = '+' then .ok () (st.add_token .Plus)
    else if c = ';' then .ok () (st.add_token .Semicolon)
    else if c = '*' then .ok () (st.add_token .Star)
    else if c = '!' then
      match st.check_and_consume ['='] with
      | .panicked s => .panicked s
      | .ok b st => .ok () (st.add_token (if b then .BangEqual else .Bang))
    else if c = '=' then
      match st.check_and_consume ['='] with
      | .panicked s => .panicked s
      | .ok b st => .ok () (st.add_token (if b then .EqualEqual else .Equal))
    else if c = '<' then
      match st.check_and_consume ['='] with
      | .panicked s => .panicked s
      | .ok b st => .ok () (st.add_token (if b then .LessEqual else .Less))
    else if c = '>' then
      match st.check_and_consume ['='] with
      | .panicked s => .panicked s
      | .ok b st => .ok () (st.add_token (if b then .GreaterEqual else .Greater))
    else if c = '/' then
      match st.check_and_consume ['/'] with
      | .panicked s => .panicked s
      | .ok true st => st.comment_loop
      | .ok false st => .ok () (st.add_token .Slash)
    else if c = ' ' ∨ c = '\r' ∨ c = '\t' then .ok () st
    else if c = '\n' then .ok () { st with line := st.line + 1 }
    else if c = '"' then st.parse_string
    else if c.isDigit then st.parse_number
    else if is_valid_identifier_char c then st.parse_identifier
    else if c = '.' then .ok () (st.add_token .Dot)
    else
      .ok () (st.lox_generic_error st.line
        ("Unexpected character " ++ squote ++ c.toString ++ squote))

theorem one_le_utf8Size (c : Char) : 1 ≤ utf8Size c := by
  unfold utf8Size; split_ifs <;> omega

theorem length_le_byteLen (l : List Char) : l.length ≤ byteLen l := by
  induction l with
  | nil => simp [byteLen]
  | cons c cs ih =>
    have := one_le_utf8Size c
    simp only [byteLen, List.map_cons, List.sum_cons, List.length_cons] at *
    omega

theorem count_take_succ {l : List Char} {n : Nat} {c x : Char} (h : l[n]? = some c) :
    (l.take (n + 1)).count x = (l.take n).count x + (if c = x then 1 else 0) := by
  rw [List.take_succ, List.count_append, h]
  cases Decidable.em (c = x) with
  | inl he => subst he; simp
  | inr he => simp [List.count_singleton', he]

theorem getElem?_lt {l : List Char} {n : Nat} {c : Char} (h : l[n]? = some c) :
    n < l.length := by
  simpa using (List.getElem?_eq_some.mp h).1

/-- What one pass of a scanner loop (or any token-free scanner step) preserves:
source, token-start, tokens, diagnostics and flag are untouched, the cursor
moves forward without escaping the character count, and the line counter grows
exactly by the newlines the cursor passed. -/
structure LoopStep (st st' : Scanner) : Prop where
  source_eq : st'.source = st.source
  start_eq : st'.start = st.start
  tokens_eq : st'.tokens = st.tokens
  diags_eq : st'.diags = st.diags
  flag_eq : st'.err_flag = st.err_flag
  current_mono : st.current ≤ st'.current
  current_bound : st.current ≤ st.source.length → st'.current ≤ st.source.length
  line_shift : st'.line + ((st.source.take st.current).count '\n') =
    st.line + ((st.source.take st'.current).count '\n')

theorem LoopStep.refl (st : Scanner) : LoopStep st st :=
  ⟨rfl, rfl, rfl, rfl, rfl, le_rfl, fun h => h, rfl⟩

theorem LoopStep.comp {st st1 st' : Scanner} (h1 : LoopStep st st1)
    (h2 : LoopStep st1 st') : LoopStep st st' := by
  obtain ⟨s1, a1, t1, d1, f1, m1, b1, l1⟩ := h1
  obtain ⟨s2, a2, t2, d2, f2, m2, b2, l2⟩ := h2
  rw [s1] at b2 l2
  exact ⟨s2.trans s1, a2.trans a1, t2.trans t1, d2.trans d1, f2.trans f1, m1.trans m2,
    fun h => b2 (b1 h), by omega⟩

/-- Consuming the character under the cursor while bumping the line on a
newline is a `LoopStep`. -/
theorem LoopStep.consume_nl_aware {st : Scanner} {c : Char}
    (hg : st.source[st.current]? = some c) :
    LoopStep st { st with current := st.current + 1,
                          line := if c = '\n' then st.line + 1 else st.line } := by
  have hlt := getElem?_lt hg
  refine ⟨rfl, rfl, rfl, rfl, rfl, by simp, by simp; omega, ?_⟩
  simp only
  rw [count_take_succ hg]
  split_ifs <;> omega

/-- Consuming a non-newline character under the cursor is a `LoopStep`. -/
theorem LoopStep.consume_no_nl {st : Scanner} {c : Char}
    (hg : st.source[st.current]? = some c) (hnl : c ≠ '\n') :
    LoopStep st { st with current := st.current + 1 } := by
  have h := LoopStep.consume_nl_aware hg
  rw [if_neg hnl] at h
  exact h

theorem Scanner.comment_loop_ok :
    ∀ (n : Nat) (st : Scanner) (a : Unit) (st' : Scanner),
      byteLen st.source - st.current ≤ n → st.comment_loop = .ok a st' →
      LoopStep st st' := by
  intro n
  induction n with
  | zero =>
    intro st a st' hn h
    unfold Scanner.comment_loop at h
    rw [dif_pos (by omega)] at h
    cases h
    exact LoopStep.refl st
  | succ n ih =>
    intro st a st' hn h
    unfold Scanner.comment_loop at h
    by_cases hc : byteLen st.source ≤ st.current
    · rw [dif_pos hc] at h
      cases h
      exact LoopStep.refl st
    · rw [dif_neg hc] at h
      rcases hg : st.source[st.current]? with _ | c <;> rw [hg] at h <;>
        simp only [] at h
      · simp at h
      · by_cases hnl : c = '\n'
        · rw [if_pos hnl] at h
          cases h
          exact LoopStep.refl st
        · rw [if_neg hnl] at h
          exact (LoopStep.consume_no_nl hg hnl).comp
            (ih _ _ _ (by simp; omega) h)

theorem Scanner.string_loop_ok :
    ∀ (n : Nat) (st : Scanner) (a : Unit) (st' : Scanner),
      byteLen st.source - st.current ≤ n → st.string_loop = .ok a st' →
      LoopStep st st' ∧
        (byteLen st.source ≤ st'.current ∨ st.source[st'.current]? = some '"') := by
  intro n
  induction n with
  | zero =>
    intro st a st' hn h
    unfold Scanner.string_loop at h
    rw [dif_pos (by omega)] at h
    cases h
    exact ⟨LoopStep.refl st, Or.inl (by omega)⟩
  | succ n ih =>
    intro st a st' hn h
    unfold Scanner.string_loop at h
    by_cases hc : byteLen st.source ≤ st.current
    · rw [dif_pos hc] at h
      cases h
      exact ⟨LoopStep.refl st, Or.inl hc⟩
    · rw [dif_neg hc] at h
      rcases hg : st.source[st.current]? with _ | c <;> rw [hg] at h <;>
        simp only [] at h
      · simp at h
      · by_cases hq : c = '"'
        · rw [if_pos hq] at h
          cases h
          exact ⟨LoopStep.refl st, Or.inr (hq ▸ hg)⟩
        · rw [if_neg hq] at h
          have step := LoopStep.consume_nl_aware hg
          have rec := ih _ _ _ (by simp; omega) h
          exact ⟨step.comp rec.1, by
            rcases rec.2 with hend | hquote
            · exact Or.inl (by simpa using hend)
            · exact Or.inr (by simpa using hquote)⟩

theorem Scanner.digits_loop_ok :
    ∀ (n : Nat) (st : Scanner) (a : Unit) (st' : Scanner),
      byteLen st.source - st.current ≤ n → st.digits_loop = .ok a st' →
      LoopStep st st' := by
  intro n
  induction n with
  | zero =>
    intro st a st' hn h
    unfold Scanner.digits_loop at h
    rw [dif_pos (by omega)] at h
    cases h
    exact LoopStep.refl st
  | succ n ih =>
    intro st a st' hn h
    unfold Scanner.digits_loop at h
    by_cases hc : byteLen st.source ≤ st.current
    · rw [dif_pos hc] at h
      cases h
      exact LoopStep.refl st
    · rw [dif_neg hc] at h
      rcases hg : st.source[st.current]? with _ | c <;> rw [hg] at h <;>
        simp only [] at h
      · simp at h
      · by_cases hd : c.isDigit
        · rw [if_pos hd] at h
          have hnl : c ≠ '\n' := fun he => by subst he; simp at hd
          exact (LoopStep.consume_no_nl hg hnl).comp (ih _ _ _ (by simp; omega) h)
        · rw [if_neg hd] at h
          cases h
          exact LoopStep.refl st

theorem Scanner.ident_loop_ok :
    ∀ (n : Nat) (st : Scanner) (a : Unit) (st' : Scanner),
      byteLen st.source - st.current ≤ n → st.ident_loop = .ok a st' →
      LoopStep st st' := by
  intro n
  induction n with
  | zero =>
    intro st a st' hn h
    unfold Scanner.ident_loop at h
    rw [dif_pos (by omega)] at h
    cases h
    exact LoopStep.refl st
  | succ n ih =>
    intro st a st' hn h
    unfold Scanner.ident_loop at h
    by_cases hc : byteLen st.source ≤ st.current
    · rw [dif_pos hc] at h
      cases h
      exact LoopStep.refl st
    · rw [dif_neg hc] at h
      rcases hg : st.source[st.current]? with _ | c <;> rw [hg] at h <;>
        simp only [] at h
      · simp at h
      · by_cases hd : is_valid_identifier_char c
        · rw [if_pos hd] at h
          have hnl : c ≠ '\n' := fun he => by
            subst he; simp [is_valid_identifier_char] at hd
          exact (LoopStep.consume_no_nl hg hnl).comp (ih _ _ _ (by simp; omega) h)
        · rw [if_neg hd] at h
          cases h
          exact LoopStep.refl st

/-- The C8 token/line relation: a token's lexeme occupies some range
`[s, e)` of the source and its recorded line is the 1-based line number of the
position `e` at which the lexeme ends. -/
def TokLine (source : List Char) (t : Token) : Prop :=
  ∃ s e, s ≤ e ∧ e ≤ source.length ∧ t.lexeme = sliceStr source s e ∧
    t.line = 1 + ((source.take e).count '\n')

/-- What a whole scanner step (possibly emitting tokens and diagnostics)
guarantees when it returns normally. -/
structure StepOK (st st' : Scanner) : Prop where
  source_eq : st'.source = st.source
  start_eq : st'.start = st.start
  current_mono : st.current ≤ st'.current
  current_bound : st.current ≤ st.source.length → st'.current ≤ st.source.length
  line_shift : st'.line + ((st.source.take st.current).count '\n') =
    st.line + ((st.source.take st'.current).count '\n')
  tokens_spec : ∃ ts, st'.tokens = st.tokens ++ ts ∧
    (st.line = 1 + ((st.source.take st.current).count '\n') →
     st.start ≤ st.current → st.current ≤ st.source.length →
     ∀ t ∈ ts, TokLine st.source t)

theorem LoopStep.stepOK {st st' : Scanner} (h : LoopStep st st') : StepOK st st' :=
  ⟨h.source_eq, h.start_eq, h.current_mono, h.current_bound, h.line_shift,
   ⟨[], by rw [h.tokens_eq, List.append_nil], fun _ _ _ t ht => absurd ht (by simp)⟩⟩

theorem StepOK.compose {st st1 st' : Scanner} (h1 : StepOK st st1) (h2 : StepOK st1 st') :
    StepOK st st' := by
  obtain ⟨s1, a1, m1, b1, l1, ts1, hts1, hp1⟩ := h1
  obtain ⟨s2, a2, m2, b2, l2, ts2, hts2, hp2⟩ := h2
  rw [s1] at b2 l2
  refine ⟨s2.trans s1, a2.trans a1, m1.trans m2, fun h => b2 (b1 h), by omega,
    ts1 ++ ts2, by rw [hts2, hts1, List.append_assoc], ?_⟩
  intro hinv hsc hcl t ht
  rcases List.mem_append.mp ht with ht1 | ht2
  · exact hp1 hinv hsc hcl t ht1
  · have hinv1 : st1.line = 1 + ((st.source.take st1.current).count '\n') := by omega
    have := hp2 (by rw [s1]; exact hinv1) (by rw [a1]; omega) (by rw [s1]; exact b1 hcl) t ht2
    rwa [s1] at this

theorem StepOK.add_token_with_value (st : Scanner) (tt : TokenType) (lit : Literal) :
    StepOK st (st.add_token_with_value tt lit) := by
  refine ⟨rfl, rfl, le_rfl, fun h => h, rfl,
    [⟨tt, sliceStr st.source st.start st.current, lit, st.line⟩], rfl, ?_⟩
  intro hinv hsc hcl t ht
  simp only [List.mem_singleton] at ht
  subst ht
  exact ⟨st.start, st.current, hsc, hcl, rfl, hinv⟩

theorem StepOK.add_token (st : Scanner) (tt : TokenType) :
    StepOK st (st.add_token tt) :=
  StepOK.add_token_with_value st tt .None

theorem StepOK.report (st : Scanner) (line : Nat) (msg : String) :
    StepOK st (st.lox_generic_error line msg) :=
  ⟨rfl, rfl, le_rfl, fun h => h, rfl,
   ⟨[], by simp [Scanner.lox_generic_error], fun _ _ _ t ht => absurd ht (by simp)⟩⟩

theorem Scanner.consume_ok {st : Scanner} {c : Char} {st' : Scanner}
    (h : st.consume = .ok c st') :
    st.source[st.current]? = some c ∧ st' = { st with current := st.current + 1 } := by
  unfold Scanner.consume Scanner.get_current_char Scanner.get_nth_char at h
  rcases hg : st.source[st.current]? with _ | d <;> rw [hg] at h <;> simp only [] at h
  · simp at h
  · rw [ScanOut.ok.injEq] at h
    obtain ⟨h1, h2⟩ := h
    subst h1
    exact ⟨rfl, h2.symm⟩

theorem Scanner.consume_panicked {st : Scanner} {st' : Scanner}
    (h : st.consume = .panicked st') :
    st.source[st.current]? = none ∧ st' = st := by
  unfold Scanner.consume Scanner.get_current_char Scanner.get_nth_char at h
  rcases hg : st.source[st.current]? with _ | d <;> rw [hg] at h <;> simp only [] at h
  · rw [ScanOut.panicked.injEq] at h
    exact ⟨rfl, h.symm⟩
  · simp at h

theorem Scanner.check_and_consume_ok {st : Scanner} {e : List Char} {b : Bool}
    {st' : Scanner} (h : st.check_and_consume e = .ok b st') :
    st' = st ∨
      ∃ c, st.source[st.current]? = some c ∧ (e.any fun x => decide (c ≠ x)) = false ∧
        st' = { st with current := st.current + 1 } := by
  unfold Scanner.check_and_consume at h
  by_cases he : st.is_at_end
  · rw [if_pos he] at h
    cases h
    exact Or.inl rfl
  · rw [if_neg he] at h
    unfold Scanner.get_current_char Scanner.get_nth_char at h
    rcases hg : st.source[st.current]? with _ | c <;> rw [hg] at h <;> simp only [] at h
    · simp at h
    · by_cases ha : (e.any fun x => decide (c ≠ x)) = true
      · rw [if_pos ha] at h
        rw [ScanOut.ok.injEq] at h
        exact Or.inl h.2.symm
      · rw [if_neg ha] at h
        rw [ScanOut.ok.injEq] at h
        exact Or.inr ⟨c, rfl, by simpa using ha, h.2.symm⟩

/-- A non-NUL peeked character is the character under the cursor. -/
theorem Scanner.peek_some_of_ne_nul {st : Scanner} {c : Char} (hp : st.peek = some c)
    (hne : c ≠ Char.ofNat 0) : st.source[st.current]? = some c := by
  unfold Scanner.peek at hp
  by_cases he : st.is_at_end
  · rw [if_pos he] at hp
    cases hp
    exact absurd rfl hne
  · rw [if_neg he] at hp
    unfold Scanner.get_current_char Scanner.get_nth_char at hp
    exact hp

theorem Scanner.parse_string_ok {st : Scanner} {a : Unit} {st' : Scanner}
    (h : st.parse_string = .ok a st') : StepOK st st' := by
  unfold Scanner.parse_string at h
  rcases hsl : st.string_loop with ⟨u, st1⟩ | s1 <;> rw [hsl] at h <;> simp only [] at h
  · obtain ⟨ls, hstop⟩ :=
      Scanner.string_loop_ok (byteLen st.source - st.current) st u st1 le_rfl hsl
    by_cases he : st1.is_at_end = true
    · rw [if_pos he] at h
      exfalso
      have hbe : byteLen st1.source ≤ st1.current := by
        unfold Scanner.is_at_end at he
        simpa using he
      have hlen : st1.source.length ≤ st1.current := by
        have := length_le_byteLen st1.source
        omega
      have hnone : (st1.lox_generic_error st1.line "Unterminated string.").consume =
          .panicked (st1.lox_generic_error st1.line "Unterminated string.") := by
        unfold Scanner.consume Scanner.get_current_char Scanner.get_nth_char
          Scanner.lox_generic_error
        rw [List.getElem?_eq_none (by simpa using hlen)]
      rw [hnone] at h
      simp at h
    · rw [if_neg he] at h
      have hq : st1.source[st1.current]? = some '"' := by
        rcases hstop with hend | hq
        · refine absurd ?_ he
          unfold Scanner.is_at_end
          rw [ls.source_eq]
          simpa using hend
        · rw [ls.source_eq]
          exact hq
      have hcon : st1.consume = .ok '"' { st1 with current := st1.current + 1 } := by
        unfold Scanner.consume Scanner.get_current_char Scanner.get_nth_char
        rw [hq]
      rw [hcon] at h
      simp only [] at h
      rw [ScanOut.ok.injEq] at h
      obtain ⟨_, h2⟩ := h
      rw [← h2]
      exact (ls.stepOK.compose (LoopStep.consume_no_nl hq (by decide)).stepOK).compose
        (StepOK.add_token_with_value _ _ _)
  · simp at h

theorem Scanner.parse_number_ok {st : Scanner} {a : Unit} {st' : Scanner}
    (h : st.parse_number = .ok a st') : StepOK st st' := by
  unfold Scanner.parse_number at h
  rcases hdl : st.digits_loop with ⟨u, st1⟩ | s1 <;> rw [hdl] at h <;> simp only [] at h
  · have ls1 := Scanner.digits_loop_ok (byteLen st.source - st.current) st u st1 le_rfl hdl
    rcases hp : st1.peek with _ | c <;> rw [hp] at h <;> simp only [] at h
    · simp at h
    · by_cases hdot : c = '.'
      · rw [if_pos hdot] at h
        rcases hpn : st1.peek_next with _ | c2 <;> rw [hpn] at h <;> simp only [] at h
        · simp at h
        · by_cases hd2 : c2.isDigit = true
          · rw [if_pos hd2] at h
            have hq : st1.source[st1.current]? = some c :=
              Scanner.peek_some_of_ne_nul hp (by rw [hdot]; decide)
            have hcon : st1.consume = .ok c { st1 with current := st1.current + 1 } := by
              unfold Scanner.consume Scanner.get_current_char Scanner.get_nth_char
              rw [hq]
            rw [hcon] at h
            simp only [] at h
            rcases hdl2 : ({ st1 with current := st1.current + 1 } : Scanner).digits_loop
              with ⟨u2, st2⟩ | s2 <;> rw [hdl2] at h <;> simp only [] at h
            · rw [ScanOut.ok.injEq] at h
              obtain ⟨_, h2⟩ := h
              rw [← h2]
              unfold Scanner.finish_number
              have ls2 := Scanner.digits_loop_ok
                (byteLen ({ st1 with current := st1.current + 1 } : Scanner).source -
                  ({ st1 with current := st1.current + 1 } : Scanner).current)
                _ u2 st2 le_rfl hdl2
              exact ((ls1.stepOK.compose
                (LoopStep.consume_no_nl hq (by rw [hdot]; decide)).stepOK).compose
                  ls2.stepOK).compose (StepOK.add_token_with_value _ _ _)
            · simp at h
          · rw [if_neg hd2] at h
            rw [ScanOut.ok.injEq] at h
            obtain ⟨_, h2⟩ := h
            rw [← h2]
            unfold Scanner.finish_number
            exact ls1.stepOK.compose (StepOK.add_token_with_value _ _ _)
      · rw [if_neg hdot] at h
        rw [ScanOut.ok.injEq] at h
        obtain ⟨_, h2⟩ := h
        rw [← h2]
        unfold Scanner.finish_number
        exact ls1.stepOK.compose (StepOK.add_token_with_value _ _ _)
  · simp at h

theorem Scanner.parse_identifier_ok {st : Scanner} {a : Unit} {st' : Scanner}
    (h : st.parse_identifier = .ok a st') : StepOK st st' := by
  unfold Scanner.parse_identifier at h
  rcases hil : st.ident_loop with ⟨u, st1⟩ | s1 <;> rw [hil] at h <;> simp only [] at h
  · have ls1 := Scanner.ident_loop_ok (byteLen st.source - st.current) st u st1 le_rfl hil
    cases hlk : (KEYWORDS.lookup (sliceStr st1.source st1.start st1.current)).getD
        .Identifier <;>
      rw [hlk] at h <;> simp only [] at h <;>
      (rw [ScanOut.ok.injEq] at h; obtain ⟨_, h2⟩ := h; rw [← h2]) <;>
      exact ls1.stepOK.compose (StepOK.add_token_with_value _ _ _)
  · simp at h


theorem Scanner.scan_token_ok {st : Scanner} {a : Unit} {st' : Scanner}
    (h : st.scan_token = .ok a st') : StepOK st st' ∧ st.current < st'.current := by
  unfold Scanner.scan_token at h
  rcases hcon : st.consume with ⟨c, st1⟩ | s <;> rw [hcon] at h <;> simp only [] at h
  swap
  · simp at h
  obtain ⟨hg, hst1⟩ := Scanner.consume_ok hcon
  subst hst1
  have hmain : ∀ st2 : Scanner,
      StepOK { st with current := st.current + 1 } st2 → c ≠ '\n' →
      StepOK st st2 ∧ st.current < st2.current := by
    intro st2 hs hnl
    refine ⟨(LoopStep.consume_no_nl hg hnl).stepOK.compose hs, ?_⟩
    have := hs.current_mono
    simp only [] at this
    omega
  by_cases h1 : c = '('
  · rw [if_pos h1] at h
    rw [ScanOut.ok.injEq] at h
    rw [← h.2]
    exact hmain _ (StepOK.add_token _ _) (by rw [h1]; decide)
  rw [if_neg h1] at h
  by_cases h2 : c = ')'
  · rw [if_pos h2] at h
    rw [ScanOut.ok.injEq] at h
    rw [← h.2]
    exact hmain _ (StepOK.add_token _ _) (by rw [h2]; decide)
  rw [if_neg h2] at h
  by_cases h3 : c = Char.ofNat 123
  · rw [if_pos h3] at h
    rw [ScanOut.ok.injEq] at h
    rw [← h.2]
    exact hmain _ (StepOK.add_token _ _) (by rw [h3]; decide)
  rw [if_neg h3] at h
  by_cases h4 : c = Char.ofNat 125
  · rw [if_pos h4] at h
    rw [ScanOut.ok.injEq] at h
    rw [← h.2]
    exact hmain _ (StepOK.add_token _ _) (by rw [h4]; decide)
  rw [if_neg h4] at h
  by_cases h5 : c = ','
  · rw [if_pos h5] at h
    rw [ScanOut.ok.injEq] at h
    rw [← h.2]
    exact hmain _ (StepOK.add_token _ _) (by rw [h5]; decide)
  rw [if_neg h5] at h
  by_cases h6 : c = '-'
  · rw [if_pos h6] at h
    rw [ScanOut.ok.injEq] at h
    rw [← h.2]
    exact hmain _ (StepOK.add_token _ _) (by rw [h6]; decide)
  rw [if_neg h6] at h
  by_cases h7 : c = '+'
  · rw [if_pos h7] at h
    rw [ScanOut.ok.injEq] at h
    rw [← h.2]
    exact hmain _ (StepOK.add_token _ _) (by rw [h7]; decide)
  rw [if_neg h7] at h
  by_cases h8 : c = ';'
  · rw [if_pos h8] at h
    rw [ScanOut.ok.injEq] at h
    rw [← h.2]
    exact hmain _ (StepOK.add_token _ _) (by rw [h8]; decide)
  rw [if_neg h8] at h
  by_cases h9 : c = '*'
  · rw [if_pos h9] at h
    rw [ScanOut.ok.injEq] at h
    rw [← h.2]
    exact hmain _ (StepOK.add_token _ _) (by rw [h9]; decide)
  rw [if_neg h9] at h
  by_cases h10 : c = '!'
  · rw [if_pos h10] at h
    rcases hcc : ({ st with current := st.current + 1 } : Scanner).check_and_consume ['=']
      with ⟨b, st2⟩ | s2 <;> rw [hcc] at h <;> simp only [] at h
    · rw [ScanOut.ok.injEq] at h
      rw [← h.2]
      have hstep : StepOK ({ st with current := st.current + 1 } : Scanner) st2 := by
        rcases Scanner.check_and_consume_ok hcc with rfl | ⟨c2, hg2, ha2, rfl⟩
        · exact (LoopStep.refl _).stepOK
        · refine (LoopStep.consume_no_nl hg2 ?_).stepOK
          have hce : c2 = '=' := by simpa using ha2
          rw [hce]; decide
      exact hmain _ (hstep.compose (StepOK.add_token _ _)) (by rw [h10]; decide)
    · simp at h
  rw [if_neg h10] at h
  by_cases h11 : c = '='
  · rw [if_pos h11] at h
    rcases hcc : ({ st with current := st.current + 1 } : Scanner).check_and_consume ['=']
      with ⟨b, st2⟩ | s2 <;> rw [hcc] at h <;> simp only [] at h
    · rw [ScanOut.ok.injEq] at h
      rw [← h.2]
      have hstep : StepOK ({ st with current := st.current + 1 } : Scanner) st2 := by
        rcases Scanner.check_and_consume_ok hcc with rfl | ⟨c2, hg2, ha2, rfl⟩
        · exact (LoopStep.refl _).stepOK
        · refine (LoopStep.consume_no_nl hg2 ?_).stepOK
          have hce : c2 = '=' := by simpa using ha2
          rw [hce]; decide
      exact hmain _ (hstep.compose (StepOK.add_token _ _)) (by rw [h11]; decide)
    · simp at h
  rw [if_neg h11] at h
  by_cases h12 : c = '<'
  · rw [if_pos h12] at h
    rcases hcc : ({ st with current := st.current + 1 } : Scanner).check_and_consume ['=']
      with ⟨b, st2⟩ | s2 <;> rw [hcc] at h <;> simp only [] at h
    · rw [ScanOut.ok.injEq] at h
      rw [← h.2]
      have hstep : StepOK ({ st with current := st.current + 1 } : Scanner) st2 := by
        rcases Scanner.check_and_consume_ok hcc with rfl | ⟨c2, hg2, ha2, rfl⟩
        · exact (LoopStep.refl _).stepOK
        · refine (LoopStep.consume_no_nl hg2 ?_).stepOK
          have hce : c2 = '=' := by simpa using ha2
          rw [hce]; decide
      exact hmain _ (hstep.compose (StepOK.add_token _ _)) (by rw [h12]; decide)
    · simp at h
  rw [if_neg h12] at h
  by_cases h13 : c = '>'
  · rw [if_pos h13] at h
    rcases hcc : ({ st with current := st.current + 1 } : Scanner).check_and_consume ['=']
      with ⟨b, st2⟩ | s2 <;> rw [hcc] at h <;> simp only [] at h
    · rw [ScanOut.ok.injEq] at h
      rw [← h.2]
      have hstep : StepOK ({ st with current := st.current + 1 } : Scanner) st2 := by
        rcases Scanner.check_and_consume_ok hcc with rfl | ⟨c2, hg2, ha2, rfl⟩
        · exact (LoopStep.refl _).stepOK
        · refine (LoopStep.consume_no_nl hg2 ?_).stepOK
          have hce : c2 = '=' := by simpa using ha2
          rw [hce]; decide
      exact hmain _ (hstep.compose (StepOK.add_token _ _)) (by rw [h13]; decide)
    · simp at h
  rw [if_neg h13] at h
  by_cases h14 : c = '/'
  · rw [if_pos h14] at h
    rcases hcc : ({ st with current := st.current + 1 } : Scanner).check_and_consume ['/']
      with ⟨b, st2⟩ | s2 <;> rw [hcc] at h
    · have hstep : StepOK ({ st with current := st.current + 1 } : Scanner) st2 := by
        rcases Scanner.check_and_consume_ok hcc with rfl | ⟨c2, hg2, ha2, rfl⟩
        · exact (LoopStep.refl _).stepOK
        · refine (LoopStep.consume_no_nl hg2 ?_).stepOK
          have hce : c2 = '/' := by simpa using ha2
          rw [hce]; decide
      cases b <;> simp only [] at h
      · rw [ScanOut.ok.injEq] at h
        rw [← h.2]
        exact hmain _ (hstep.compose (StepOK.add_token _ _)) (by rw [h14]; decide)
      · have lc := Scanner.comment_loop_ok (byteLen st2.source - st2.current) st2 a st'
          le_rfl h
        exact hmain _ (hstep.compose lc.stepOK) (by rw [h14]; decide)
    · simp at h
  rw [if_neg h14] at h
  by_cases h15 : c = ' ' ∨ c = '\r' ∨ c = '\t'
  · rw [if_pos h15] at h
    rw [ScanOut.ok.injEq] at h
    rw [← h.2]
    exact hmain _ ((LoopStep.refl _).stepOK)
      (by rcases h15 with hw | hw | hw <;> rw [hw] <;> decide)
  rw [if_neg h15] at h
  by_cases h16 : c = '\n'
  · rw [if_pos h16] at h
    subst h16
    rw [ScanOut.ok.injEq] at h
    rw [← h.2]
    have step := LoopStep.consume_nl_aware hg
    rw [if_pos rfl] at step
    exact ⟨step.stepOK, (by omega : st.current < st.current + 1)⟩
  rw [if_neg h16] at h
  by_cases h17 : c = '"'
  · rw [if_pos h17] at h
    exact hmain _ (Scanner.parse_string_ok h) h16
  rw [if_neg h17] at h
  by_cases h18 : c.isDigit = true
  · rw [if_pos h18] at h
    exact hmain _ (Scanner.parse_number_ok h) h16
  rw [if_neg h18] at h
  by_cases h19 : is_valid_identifier_char c = true
  · rw [if_pos h19] at h
    exact hmain _ (Scanner.parse_identifier_ok h) h16
  rw [if_neg h19] at h
  by_cases h20 : c = '.'
  · rw [if_pos h20] at h
    rw [ScanOut.ok.injEq] at h
    rw [← h.2]
    exact hmain _ (StepOK.add_token _ _) (by rw [h20]; decide)
  rw [if_neg h20] at h
  rw [ScanOut.ok.injEq] at h
  rw [← h.2]
  exact hmain _ (StepOK.report _ _ _) h16

/-- scanner.rs `Scanner::scan_tokens` while loop: while not at end, set
`start := current` and scan one token; afterwards push the Eof token (empty
lexeme, current line) and return the token vector. -/
def Scanner.scan_loop (st : Scanner) : ScanOut (List Token) :=
  if _h : byteLen st.source ≤ st.current then
    .ok (st.tokens ++ [⟨.Eof, "", .None, st.line⟩])
      { st with tokens := st.tokens ++ [⟨.Eof, "", .None, st.line⟩] }
  else
    match hs : Scanner.scan_token { st with start := st.current } with
    | .panicked s => .panicked s
    | .ok _ st' => Scanner.scan_loop st'
termination_by byteLen st.source - st.current
decreasing_by
  have hstep := (Scanner.scan_token_ok hs).1
  have hlt := (Scanner.scan_token_ok hs).2
  have hsrc := hstep.source_eq
  simp only [] at hsrc hlt
  simp_wf
  rw [hsrc]
  simp only [] at *
  omega

/-- scanner.rs `Scanner::new(source).scan_tokens()`. -/
def scan_tokens (source : List Char) : ScanOut (List Token) :=
  Scanner.scan_loop
    { source := source, tokens := [], start := 0, current := 0, line := 1,
      diags := [], err_flag := false }

/-- Fuel-indexed evaluator for `comment_loop` (structural recursion, so that
concrete runs compute by `rfl`); `comment_loopF_eq` proves it agrees with the
function it mirrors whenever the fuel exceeds the loop measure. -/
def Scanner.comment_loopF : Nat → Scanner → ScanOut Unit
  | 0, st => .panicked st
  | f + 1, st =>
    if byteLen st.source ≤ st.current then .ok () st
    else
      match st.source[st.current]? with
      | none => .panicked st
      | some c =>
        if c = '\n' then .ok () st
        else Scanner.comment_loopF f { st with current := st.current + 1 }

/-- Fuel-indexed evaluator for `string_loop`. -/
def Scanner.string_loopF : Nat → Scanner → ScanOut Unit
  | 0, st => .panicked st
  | f + 1, st =>
    if byteLen st.source ≤ st.current then .ok () st
    else
      match st.source[st.current]? with
      | none => .panicked st
      | some c =>
        if c = '"' then .ok () st
        else
          Scanner.string_loopF f
            { st with current := st.current + 1,
                      line := if c = '\n' then st.line + 1 else st.line }

/-- Fuel-indexed evaluator for `digits_loop`. -/
def Scanner.digits_loopF : Nat → Scanner → ScanOut Unit
  | 0, st => .panicked st
  | f + 1, st =>
    if byteLen st.source ≤ st.current then .ok () st
    else
      match st.source[st.current]? with
      | none => .panicked st
      | some c =>
        if c.isDigit then Scanner.digits_loopF f { st with current := st.current + 1 }
        else .ok () st

/-- Fuel-indexed evaluator for `ident_loop`. -/
def Scanner.ident_loopF : Nat → Scanner → ScanOut Unit
  | 0, st => .panicked st
  | f + 1, st =>
    if byteLen st.source ≤ st.current then .ok () st
    else
      match st.source[st.current]? with
      | none => .panicked st
      | some c =>
        if is_valid_identifier_char c then
          Scanner.ident_loopF f { st with current := st.current + 1 }
        else .ok () st

theorem Scanner.comment_loopF_eq :
    ∀ (f : Nat) (st : Scanner), byteLen st.source - st.current < f →
      Scanner.comment_loopF f st = st.comment_loop := by
  intro f
  induction f with
  | zero => intro st h; omega
  | succ f ih =>
    intro st h
    unfold Scanner.comment_loopF
    unfold Scanner.comment_loop
    by_cases hc : byteLen st.source ≤ st.current
    · rw [if_pos hc, dif_pos hc]
    · rw [if_neg hc, dif_neg hc]
      rcases hg : st.source[st.current]? with _ | c <;> simp only []
      by_cases hnl : c = '\n'
      · rw [if_pos hnl, if_pos hnl]
      · rw [if_neg hnl, if_neg hnl]
        exact ih _ (by simp; omega)

theorem Scanner.string_loopF_eq :
    ∀ (f : Nat) (st : Scanner), byteLen st.source - st.current < f →
      Scanner.string_loopF f st = st.string_loop := by
  intro f
  induction f with
  | zero => intro st h; omega
  | succ f ih =>
    intro st h
    unfold Scanner.string_loopF
    unfold Scanner.string_loop
    by_cases hc : byteLen st.source ≤ st.current
    · rw [if_pos hc, dif_pos hc]
    · rw [if_neg hc, dif_neg hc]
      rcases hg : st.source[st.current]? with _ | c <;> simp only []
      by_cases hq : c = '"'
      · rw [if_pos hq, if_pos hq]
      · rw [if_neg hq, if_neg hq]
        exact ih _ (by simp; omega)

theorem Scanner.digits_loopF_eq :
    ∀ (f : Nat) (st : Scanner), byteLen st.source - st.current < f →
      Scanner.digits_loopF f st = st.digits_loop := by
  intro f
  induction f with
  | zero => intro st h; omega
  | succ f ih =>
    intro st h
    unfold Scanner.digits_loopF
    unfold Scanner.digits_loop
    by_cases hc : byteLen st.source ≤ st.current
    · rw [if_pos hc, dif_pos hc]
    · rw [if_neg hc, dif_neg hc]
      rcases hg : st.source[st.current]? with _ | c <;> simp only []
      by_cases hd : c.isDigit = true
      · rw [if_pos hd, if_pos hd]
        exact ih _ (by simp; omega)
      · rw [if_neg hd, if_neg hd]

theorem Scanner.ident_loopF_eq :
    ∀ (f : Nat) (st : Scanner), byteLen st.source - st.current < f →
      Scanner.ident_loopF f st = st.ident_loop := by
  intro f
  induction f with
  | zero => intro st h; omega
  | succ f ih =>
    intro st h
    unfold Scanner.ident_loopF
    unfold Scanner.ident_loop
    by_cases hc : byteLen st.source ≤ st.current
    · rw [if_pos hc, dif_pos hc]
    · rw [if_neg hc, dif_neg hc]
      rcases hg : st.source[st.current]? with _ | c <;> simp only []
      by_cases hd : is_valid_identifier_char c = true
      · rw [if_pos hd, if_pos hd]
        exact ih _ (by simp; omega)
      · rw [if_neg hd, if_neg hd]

/-- Self-fuelled form of `comment_loopF`: with fuel one more than the loop
measure it coincides with `comment_loop` on every state. -/
theorem Scanner.comment_loop_self (st : Scanner) :
    Scanner.comment_loopF (byteLen st.source - st.current + 1) st = st.comment_loop :=
  Scanner.comment_loopF_eq _ _ (by omega)

/-- Self-fuelled form of `string_loopF`. -/
theorem Scanner.string_loop_self (st : Scanner) :
    Scanner.string_loopF (byteLen st.source - st.current + 1) st = st.string_loop :=
  Scanner.string_loopF_eq _ _ (by omega)

/-- Self-fuelled form of `digits_loopF`. -/
theorem Scanner.digits_loop_self (st : Scanner) :
    Scanner.digits_loopF (byteLen st.source - st.current + 1) st = st.digits_loop :=
  Scanner.digits_loopF_eq _ _ (by omega)

/-- Self-fuelled form of `ident_loopF`. -/
theorem Scanner.ident_loop_self (st : Scanner) :
    Scanner.ident_loopF (byteLen st.source - st.current + 1) st = st.ident_loop :=
  Scanner.ident_loopF_eq _ _ (by omega)

/-- Computable evaluator for `parse_string` (loops replaced by their
self-fuelled evaluators); `parse_stringF_eq` proves agreement. -/
def Scanner.parse_stringF (st : Scanner) : ScanOut Unit :=
  match Scanner.string_loopF (byteLen st.source - st.current + 1) st with
  | .panicked s => .panicked s
  | .ok _ st =>
    match (if st.is_at_end then st.lox_generic_error st.line "Unterminated string."
           else st).consume with
    | .panicked s => .panicked s
    | .ok _ st =>
      .ok () (st.add_token_with_value .String
        (.String (sliceStr st.source (st.start + 1) (st.current - 1))))

theorem Scanner.parse_stringF_eq (st : Scanner) :
    Scanner.parse_stringF st = st.parse_string := by
  unfold Scanner.parse_stringF Scanner.parse_string
  rw [Scanner.string_loop_self]

/-- Computable evaluator for `parse_number`. -/
def Scanner.parse_numberF (st : Scanner) : ScanOut Unit :=
  match Scanner.digits_loopF (byteLen st.source - st.current + 1) st with
  | .panicked s => .panicked s
  | .ok _ st1 =>
    match st1.peek with
    | none => .panicked st1
    | some c =>
      if c = '.' then
        match st1.peek_next with
        | none => .panicked st1
        | some c2 =>
          if c2.isDigit then
            match st1.consume with
            | .panicked s => .panicked s
            | .ok _ st2 =>
              match Scanner.digits_loopF (byteLen st2.source - st2.current + 1) st2 with
              | .panicked s => .panicked s
              | .ok _ st3 => .ok () st3.finish_number
          else .ok () st1.finish_number
      else .ok () st1.finish_number

theorem Scanner.parse_numberF_eq (st : Scanner) :
    Scanner.parse_numberF st = st.parse_number := by
  unfold Scanner.parse_numberF Scanner.parse_number
  simp only [Scanner.digits_loop_self]

/-- Computable evaluator for `parse_identifier`. -/
def Scanner.parse_identifierF (st : Scanner) : ScanOut Unit :=
  match Scanner.ident_loopF (byteLen st.source - st.current + 1) st with
  | .panicked s => .panicked s
  | .ok _ st =>
    match (KEYWORDS.lookup (sliceStr st.source st.start st.current)).getD .Identifier with
    | .True => .ok () (st.add_token_with_value .True (.Boolean true))
    | .False => .ok () (st.add_token_with_value .False (.Boolean false))
    | tt => .ok () (st.add_token tt)

theorem Scanner.parse_identifierF_eq (st : Scanner) :
    Scanner.parse_identifierF st = st.parse_identifier := by
  unfold Scanner.parse_identifierF Scanner.parse_identifier
  rw [Scanner.ident_loop_self]

/-- Computable evaluator for `scan_token`. -/
def Scanner.scan_tokenF (st : Scanner) : ScanOut Unit :=
  match st.consume with
  | .panicked s => .panicked s
  | .ok c st =>
    if c = '(' then .ok () (st.add_token .LeftParen)
    else if c = ')' then .ok () (st.add_token .RightParen)
    else if c = Char.ofNat 123 then .ok () (st.add_token .LeftBrace)
    else if c = Char.ofNat 125 then .ok () (st.add_token .RightBrace)
    else if c = ',' then .ok () (st.add_token .Comma)
    else if c = '-' then .ok () (st.add_token .Minus)
    else if c = '+' then .ok () (st.add_token .Plus)
    else if c = ';' then .ok () (st.add_token .Semicolon)
    else if c = '*' then .ok () (st.add_token .Star)
    else if c = '!' then
      match st.check_and_consume ['='] with
      | .panicked s => .panicked s
      | .ok b st => .ok () (st.add_token (if b then .BangEqual else .Bang))
    else if c = '=' then
      match st.check_and_consume ['='] with
      | .panicked s => .panicked s
      | .ok b st => .ok () (st.add_token (if b then .EqualEqual else .Equal))
    else if c = '<' then
      match st.check_and_consume ['='] with
      | .panicked s => .panicked s
      | .ok b st => .ok () (st.add_token (if b then .LessEqual else .Less))
    else if c = '>' then
      match st.check_and_consume ['='] with
      | .panicked s => .panicked s
      | .ok b st => .ok () (st.add_token (if b then .GreaterEqual else .Greater))
    else if c = '/' then
      match st.check_and_consume ['/'] with
      | .panicked s => .panicked s
      | .ok true st => Scanner.comment_loopF (byteLen st.source - st.current + 1) st
      | .ok false st => .ok () (st.add_token .Slash)
    else if c = ' ' ∨ c = '\r' ∨ c = '\t' then .ok () st
    else if c = '\n' then .ok () { st with line := st.line + 1 }
    else if c = '"' then Scanner.parse_stringF st
    else if c.isDigit then Scanner.parse_numberF st
    else if is_valid_identifier_char c then Scanner.parse_identifierF st
    else if c = '.' then .ok () (st.add_token .Dot)
    else
      .ok () (st.lox_generic_error st.line
        ("Unexpected character " ++ squote ++ c.toString ++ squote))

theorem Scanner.scan_tokenF_eq (st : Scanner) :
    Scanner.scan_tokenF st = st.scan_token := by
  unfold Scanner.scan_tokenF Scanner.scan_token
  simp only [Scanner.comment_loop_self, Scanner.parse_stringF_eq,
    Scanner.parse_numberF_eq, Scanner.parse_identifierF_eq]

/-- Computable evaluator for the `scan_tokens` loop. -/
def Scanner.scan_loopF : Nat → Scanner → ScanOut (List Token)
  | 0, st => .panicked st
  | f + 1, st =>
    if byteLen st.source ≤ st.current then
      .ok (st.tokens ++ [⟨.Eof, "", .None, st.line⟩])
        { st with tokens := st.tokens ++ [⟨.Eof, "", .None, st.line⟩] }
    else
      match Scanner.scan_tokenF { st with start := st.current } with
      | .panicked s => .panicked s
      | .ok _ st' => Scanner.scan_loopF f st'

theorem Scanner.scan_loopF_eq :
    ∀ (f : Nat) (st : Scanner), byteLen st.source - st.current < f →
      Scanner.scan_loopF f st = st.scan_loop := by
  intro f
  induction f with
  | zero => intro st h; omega
  | succ f ih =>
    intro st h
    unfold Scanner.scan_loopF
    rw [Scanner.scan_loop.eq_def]
    by_cases hc : byteLen st.source ≤ st.current
    · rw [if_pos hc, dif_pos hc]
    · rw [if_neg hc, dif_neg hc, Scanner.scan_tokenF_eq]
      rcases hs : Scanner.scan_token { st with start := st.current } with ⟨u, st'⟩ | s <;>
        simp only []
      exact ih st' (by
        have hstep := (Scanner.scan_token_ok hs).1
        have hlt := (Scanner.scan_token_ok hs).2
        have hsrc' : st'.source = st.source := by simpa using hstep.source_eq
        have hlt' : st.current < st'.current := by simpa using hlt
        rw [hsrc']
        omega)

/-- Computable evaluator for `scan_tokens`; `scan_tokensF_eq` proves it agrees
with the model of `Scanner::new(source).scan_tokens()`. -/
def scan_tokensF (source : List Char) : ScanOut (List Token) :=
  Scanner.scan_loopF (byteLen source + 1)
    { source := source, tokens := [], start := 0, current := 0, line := 1,
      diags := [], err_flag := false }

theorem scan_tokensF_eq (source : List Char) : scan_tokensF source = scan_tokens source := by
  unfold scan_tokensF scan_tokens
  exact Scanner.scan_loopF_eq _ _ (by show byteLen source - 0 < byteLen source + 1; omega)

theorem Scanner.scan_loop_props :
    ∀ (n : Nat) (st : Scanner) (toks : List Token) (stf : Scanner),
      byteLen st.source - st.current ≤ n → st.scan_loop = .ok toks stf →
      st.current ≤ st.source.length →
      byteLen st.source ≤ st.source.length ∧
      (st.line = 1 + ((st.source.take st.current).count '\n') →
       (∀ t ∈ st.tokens, TokLine st.source t) →
       ∀ t ∈ toks, TokLine st.source t) := by
  intro n
  induction n with
  | zero =>
    intro st toks stf hn h hcl
    rw [Scanner.scan_loop.eq_def] at h
    rw [dif_pos (by omega)] at h
    rw [ScanOut.ok.injEq] at h
    obtain ⟨htoks, _⟩ := h
    refine ⟨by omega, ?_⟩
    intro hinv hold t ht
    rw [← htoks] at ht
    rcases List.mem_append.mp ht with hmem | hmem
    · exact hold t hmem
    · simp only [List.mem_singleton] at hmem
      subst hmem
      refine ⟨st.source.length, st.source.length, le_rfl, le_rfl, by simp [sliceStr], ?_⟩
      have h1 : st.source.take st.current = st.source :=
        List.take_of_length_le (by have := length_le_byteLen st.source; omega)
      have h2 : st.source.take st.source.length = st.source :=
        List.take_of_length_le le_rfl
      simp only []
      rw [h2, ← h1]
      exact hinv
  | succ n ih =>
    intro st toks stf hn h hcl
    rw [Scanner.scan_loop.eq_def] at h
    by_cases hc : byteLen st.source ≤ st.current
    · rw [dif_pos hc] at h
      rw [ScanOut.ok.injEq] at h
      obtain ⟨htoks, _⟩ := h
      refine ⟨by omega, ?_⟩
      intro hinv hold t ht
      rw [← htoks] at ht
      rcases List.mem_append.mp ht with hmem | hmem
      · exact hold t hmem
      · simp only [List.mem_singleton] at hmem
        subst hmem
        refine ⟨st.source.length, st.source.length, le_rfl, le_rfl, by simp [sliceStr], ?_⟩
        have h1 : st.source.take st.current = st.source :=
          List.take_of_length_le (by have := length_le_byteLen st.source; omega)
        have h2 : st.source.take st.source.length = st.source :=
          List.take_of_length_le le_rfl
        simp only []
        rw [h2, ← h1]
        exact hinv
    · rw [dif_neg hc] at h
      rcases hs : Scanner.scan_token { st with start := st.current } with ⟨u, st1⟩ | s <;>
        rw [hs] at h <;> simp only [] at h
      · have hstep := (Scanner.scan_token_ok hs).1
        have hlt := (Scanner.scan_token_ok hs).2
        have hsrc : st1.source = st.source := by simpa using hstep.source_eq
        have hlt' : st.current < st1.current := by simpa using hlt
        have hbound : st1.current ≤ st.source.length := by
          have := hstep.current_bound
          simp only [] at this
          exact this hcl
        have hrec := ih st1 toks stf (by rw [hsrc]; omega) h (by rw [hsrc]; exact hbound)
        rw [hsrc] at hrec
        refine ⟨hrec.1, ?_⟩
        intro hinv hold t ht
        have hshift := hstep.line_shift
        simp only [] at hshift
        have hinv1 : st1.line = 1 + ((st.source.take st1.current).count '\n') := by omega
        obtain ⟨ts, hts, hphi⟩ := hstep.tokens_spec
        simp only [] at hts hphi
        refine hrec.2 hinv1 ?_ t ht
        intro t1 ht1
        rw [hts] at ht1
        rcases List.mem_append.mp ht1 with hmem | hmem
        · exact hold t1 hmem
        · exact hphi hinv le_rfl hcl t1 hmem
      · simp at h

/-- Whether a scanner outcome is a panic. -/
def ScanOut.isPanic {α : Type} : ScanOut α → Bool
  | .panicked _ => true
  | .ok _ _ => false

theorem all_width_one_of_byteLen_le :
    ∀ l : List Char, byteLen l ≤ l.length → ∀ c ∈ l, utf8Size c = 1 := by
  intro l
  induction l with
  | nil => simp
  | cons c cs ih =>
    intro h x hx
    have h1 := one_le_utf8Size c
    have h2 := length_le_byteLen cs
    simp only [byteLen, List.map_cons, List.sum_cons, List.length_cons] at h
    simp only [byteLen] at h2
    rcases List.mem_cons.mp hx with rfl | hmem
    · omega
    · exact ih (by simp only [byteLen]; omega) x hmem

theorem scan_tokens_ok_ascii :
    ∀ (source : List Char) (toks : List Token) (stf : Scanner),
      scan_tokens source = .ok toks stf → ∀ c ∈ source, utf8Size c = 1 := by
  intro source toks stf h
  unfold scan_tokens at h
  have hp := Scanner.scan_loop_props (byteLen source) _ toks stf
    (by show byteLen source - 0 ≤ byteLen source; omega) h
    (by show (0 : Nat) ≤ source.length; omega)
  exact all_width_one_of_byteLen_le source hp.1

/-- C10: `scan_tokens` returns normally only for sources in which every
character occupies one UTF-8 byte; for every source that contains a multi-byte
character, `is_at_end` (which compares the character-count cursor against the
byte length) never becomes true at a readable position, so the scanner panics
trying to read a character past the last one instead of returning a token
sequence. A character occupies one byte exactly when its code point is below
128 (ASCII). -/
theorem c10_ascii_or_panic_confirmed :
    (∀ (source : List Char) (toks : List Token) (stf : Scanner),
        scan_tokens source = .ok toks stf → ∀ c ∈ source, utf8Size c = 1)
  ∧ (∀ source : List Char, (∃ c ∈ source, utf8Size c ≠ 1) →
        (scan_tokens source).isPanic = true)
  ∧ (∀ c : Char, utf8Size c = 1 ↔ c.toNat < 128) := by
  refine ⟨scan_tokens_ok_ascii, ?_, ?_⟩
  · intro source ⟨c, hc, hne⟩
    rcases h : scan_tokens source with ⟨toks, stf⟩ | s
    · exact absurd (scan_tokens_ok_ascii source toks stf h c hc) hne
    · rfl
  · intro c
    unfold utf8Size
    constructor
    · intro h
      split_ifs at h <;> omega
    · intro h
      rw [if_pos h]

/-- C10 witness: a source consisting of the single two-byte character U+00E9
makes the scanner panic. -/
theorem c10_ascii_or_panic_witness :
    (scan_tokens [Char.ofNat 233]).isPanic = true :=
  c10_ascii_or_panic_confirmed.2.1 [Char.ofNat 233]
    ⟨Char.ofNat 233, by simp, by decide⟩

/-- C2 (code_bug evidence): scanning the unterminated string source `"abc`
reports exactly one diagnostic, `Unterminated string.`, and sets error.rs
ERROR_FLAG — but then `parse_string` falls through to `consume` the (absent)
closing quote, and `get_nth_char` panics at index 4; no String token and no
Eof token are ever emitted, and `scan_tokens` does not return. -/
theorem c2_unterminated_string_code_bug :
    scan_tokens ['"', 'a', 'b', 'c'] =
      .panicked ⟨['"', 'a', 'b', 'c'], [], 0, 4, 1, [(1, "Unterminated string.")], true⟩ := by
  rw [← scan_tokensF_eq]
  decide

/-- C8 counterexample: scanning the two-line string literal `"a\nb"`, the
String token records line 2 — the line of the closing quote — although its
lexeme starts on line 1 with the opening quote, which the claim requires. -/
theorem c8_multiline_string_counterexample :
    scan_tokens ['"', 'a', '\n', 'b', '"'] =
      .ok [⟨.String, "\"a\nb\"", .String "a\nb", 2⟩, ⟨.Eof, "", .None, 2⟩]
        ⟨['"', 'a', '\n', 'b', '"'],
          [⟨.String, "\"a\nb\"", .String "a\nb", 2⟩, ⟨.Eof, "", .None, 2⟩],
          0, 5, 2, [], false⟩
  ∧ (⟨.String, "\"a\nb\"", .String "a\nb", 2⟩ : Token).line ≠ 1 := by
  constructor
  · rw [← scan_tokensF_eq]
    decide
  · decide

/-- C8 (amended): whenever `scan_tokens` returns normally, every emitted token
records the 1-based line number of the position at which its lexeme ends:
there are positions `s ≤ e` with the token's lexeme equal to `source[s..e]`
and the recorded line equal to 1 plus the number of newline characters before
position `e`. For tokens without embedded newlines this is the line on which
the lexeme started, but a string literal with embedded newlines records the
closing-quote line, not the opening-quote line. -/
theorem c8_token_line_amended :
    ∀ (source : List Char) (toks : List Token) (stf : Scanner),
      scan_tokens source = .ok toks stf → ∀ t ∈ toks, TokLine source t := by
  intro source toks stf h t ht
  unfold scan_tokens at h
  have hp := Scanner.scan_loop_props (byteLen source) _ toks stf
    (by show byteLen source - 0 ≤ byteLen source; omega) h
    (by show (0 : Nat) ≤ source.length; omega)
  refine hp.2 ?_ ?_ t ht
  · show (1 : Nat) = 1 + ((source.take 0).count '\n')
    simp
  · intro t1 ht1
    exact absurd ht1 (List.not_mem_nil t1)

/-- C8 witness: the amended claim applied to the source `+`. -/
theorem c8_token_line_witness : TokLine ['+'] ⟨.Plus, "+", .None, 1⟩ := by
  have hscan : scan_tokens ['+'] =
      .ok [⟨.Plus, "+", .None, 1⟩, ⟨.Eof, "", .None, 1⟩]
        ⟨['+'], [⟨.Plus, "+", .None, 1⟩, ⟨.Eof, "", .None, 1⟩], 0, 1, 1, [], false⟩ := by
    rw [← scan_tokensF_eq]
    decide
  exact c8_token_line_amended ['+'] _ _ hscan ⟨.Plus, "+", .None, 1⟩ (by simp)

theorem lookup_mem {α β : Type} [BEq α] [LawfulBEq α] :
    ∀ {l : List (α × β)} {s : α} {v : β}, l.lookup s = some v → (s, v) ∈ l := by
  intro l
  induction l with
  | nil => intro s v h; simp [List.lookup] at h
  | cons p ps ih =>
    intro s v h
    rcases p with ⟨k, b⟩
    rw [List.lookup] at h
    cases hbe : (s == k) <;> rw [hbe] at h <;> simp only [] at h
    · exact List.mem_cons_of_mem _ (ih h)
    · have hk : s = k := by simpa using hbe
      cases h
      subst hk
      exact List.mem_cons_self _ _

/-- The keyword lookup sends a lexeme to `True` exactly for `true`. -/
theorem keywords_true_iff (s : String) :
    (KEYWORDS.lookup s).getD .Identifier = .True ↔ s = "true" := by
  constructor
  · intro h
    rcases hlk : KEYWORDS.lookup s with _ | v
    · rw [hlk] at h
      simp at h
    · rw [hlk] at h
      simp only [Option.getD_some] at h
      subst h
      have hm := lookup_mem hlk
      simp [KEYWORDS] at hm
      exact hm
  · intro h
    subst h
    rfl

/-- The keyword lookup sends a lexeme to `False` exactly for `false`. -/
theorem keywords_false_iff (s : String) :
    (KEYWORDS.lookup s).getD .Identifier = .False ↔ s = "false" := by
  constructor
  · intro h
    rcases hlk : KEYWORDS.lookup s with _ | v
    · rw [hlk] at h
      simp at h
    · rw [hlk] at h
      simp only [Option.getD_some] at h
      subst h
      have hm := lookup_mem hlk
      simp [KEYWORDS] at hm
      exact hm
  · intro h
    subst h
    rfl

/-- The keyword dispatch of `parse_identifier`, characterised: whatever the
looked-up type, the pushed token's type is the lookup result (defaulting to
`Identifier`) and its literal is a boolean exactly for the lexemes `true` and
`false`. -/
theorem parse_identifier_push (st1 : Scanner) :
    (match (KEYWORDS.lookup (sliceStr st1.source st1.start st1.current)).getD .Identifier with
     | TokenType.True => ScanOut.ok () (st1.add_token_with_value .True (.Boolean true))
     | TokenType.False => ScanOut.ok () (st1.add_token_with_value .False (.Boolean false))
     | tt => ScanOut.ok () (st1.add_token tt)) =
    ScanOut.ok () (st1.add_token_with_value
      ((KEYWORDS.lookup (sliceStr st1.source st1.start st1.current)).getD .Identifier)
      (if sliceStr st1.source st1.start st1.current = "true" then Literal.Boolean true
       else if sliceStr st1.source st1.start st1.current = "false" then Literal.Boolean false
       else Literal.None)) := by
  cases hlk : (KEYWORDS.lookup (sliceStr st1.source st1.start st1.current)).getD .Identifier <;>
    simp only []
  case True =>
    rw [if_pos ((keywords_true_iff _).mp hlk)]
  case False =>
    have hfe := (keywords_false_iff _).mp hlk
    rw [if_neg (by rw [hfe]; decide), if_pos hfe]
  all_goals
    (rw [if_neg (fun he => by rw [he] at hlk; exact absurd hlk (by decide)),
         if_neg (fun he => by rw [he] at hlk; exact absurd hlk (by decide))]
     rfl)

/-- C9 counterexample: the keyword table has 16 entries, not 18 as the claim
states. -/
theorem c9_keyword_count_counterexample :
    KEYWORDS.length = 16 ∧ ¬ KEYWORDS.length = 18 := by
  decide

/-- C9 (amended): the scanner's fixed keyword table contains exactly these 16
reserved words; every identifier-mode lexeme is looked up in it and the
emitted token's type is the lookup result, defaulting to `Identifier` for
lexemes not in the table; and exactly the lexemes `true` and `false`
additionally attach a boolean literal value to their token (all other tokens
carry no literal). -/
theorem c9_keywords_amended :
    KEYWORDS.map Prod.fst =
      ["and", "class", "else", "false", "for", "fun", "if", "nil", "or",
       "print", "return", "super", "this", "true", "var", "while"]
  ∧ KEYWORDS.length = 16
  ∧ (∀ (st : Scanner) (a : Unit) (st' : Scanner),
      Scanner.parse_identifier st = .ok a st' →
      ∃ lex t, st'.tokens = st.tokens ++ [t] ∧ t.lexeme = lex ∧
        t.token_type = (KEYWORDS.lookup lex).getD .Identifier ∧
        t.literal = (if lex = "true" then Literal.Boolean true
          else if lex = "false" then Literal.Boolean false else Literal.None)) := by
  refine ⟨by decide, by decide, ?_⟩
  intro st a st' h
  unfold Scanner.parse_identifier at h
  rcases hil : st.ident_loop with ⟨u, st1⟩ | s1 <;> rw [hil] at h <;> simp only [] at h
  · have ls := Scanner.ident_loop_ok (byteLen st.source - st.current) st u st1 le_rfl hil
    rw [parse_identifier_push st1] at h
    rw [ScanOut.ok.injEq] at h
    obtain ⟨_, h2⟩ := h
    subst h2
    refine ⟨sliceStr st1.source st1.start st1.current,
      ⟨(KEYWORDS.lookup (sliceStr st1.source st1.start st1.current)).getD .Identifier,
        sliceStr st1.source st1.start st1.current,
        (if sliceStr st1.source st1.start st1.current = "true" then Literal.Boolean true
         else if sliceStr st1.source st1.start st1.current = "false" then Literal.Boolean false
         else Literal.None), st1.line⟩,
      ?_, rfl, rfl, rfl⟩
    show st1.tokens ++ _ = st.tokens ++ _
    rw [ls.tokens_eq]
  · simp at h

/-- Outcome of main.rs `run`, recording the final scanner state (holding
error.rs `ERROR_FLAG`) and parser state (holding main.rs `ERROR_FLAG`):
either a panic in scanning, a panic in parsing, the early return when the
gate `get_error_flag()` (main.rs's flag) is set, the printed expression, or
the panic of `expression.expect(..)` when the gate passed with no tree. -/
inductive RunOut where
  | scanPanic (sst : Scanner)
  | parsePanic (sst : Scanner) (pst : Parser)
  | parseFuel (sst : Scanner)
  | gated (sst : Scanner) (pst : Parser)
  | printed (e : Expression) (sst : Scanner) (pst : Parser)
  | printPanic (sst : Scanner) (pst : Parser)
deriving DecidableEq

/-- main.rs `run`: scan, parse, then return early when main.rs
`get_error_flag()` is set, otherwise print the expression. The parser fuel is
a model artefact (the `err` arm is dead: `Parser::parse` converts parse errors
to `None`). Fresh process: both flags start false. -/
def run (f : Nat) (source : List Char) : RunOut :=
  match scan_tokens source with
  | .panicked s => .scanPanic s
  | .ok tokens sst =>
    match Parser.parse f
        { tokens := tokens, current := 0, main_diags := [], main_error_flag := false } with
    | .panicked p => .parsePanic sst p
    | .err _ p => .parsePanic sst p
    | .nofuel => .parseFuel sst
    | .ok expression pst =>
      if pst.main_error_flag then .gated sst pst
      else
        match expression with
        | some e => .printed e sst pst
        | none => .printPanic sst pst

/-- error.rs ERROR_FLAG (the flag scanner diagnostics set) at the end of a run. -/
def RunOut.scanFlag : RunOut → Bool
  | .scanPanic s => s.err_flag
  | .parsePanic s _ => s.err_flag
  | .parseFuel s => s.err_flag
  | .gated s _ => s.err_flag
  | .printed _ s _ => s.err_flag
  | .printPanic s _ => s.err_flag

/-- main.rs ERROR_FLAG — the flag the gate checks — at the end of a run
(`none` when the run stopped before parsing finished). -/
def RunOut.gateFlag : RunOut → Option Bool
  | .scanPanic _ => none
  | .parsePanic _ p => some p.main_error_flag
  | .parseFuel _ => none
  | .gated _ p => some p.main_error_flag
  | .printed _ _ p => some p.main_error_flag
  | .printPanic _ p => some p.main_error_flag

/-- The expression the run printed, if it printed one. -/
def RunOut.printedExpr : RunOut → Option Expression
  | .printed e _ _ => some e
  | _ => none

/-- C7 (code_bug evidence): on source `@1` the scanner reports `Unexpected
character '@'` through `crate::error` (error.rs), setting error.rs
`ERROR_FLAG` — but `run`'s gate checks main.rs's own, distinct `ERROR_FLAG`
(the one the parser's reports set, since parser.rs uses `crate::report_error`),
which stays false, so output is attempted although a scan diagnostic was
reported. The parser-side flag does gate: on source `+` the parse diagnostic
sets main.rs's flag and the run returns early. So the claim of one single
process-wide flag set by every scanner- and parser-level report and observed
by the gate fails on the scanner side. -/
theorem c7_two_error_flags_code_bug :
    (run 50 ['@', '1']).scanFlag = true
  ∧ (run 50 ['@', '1']).gateFlag = some false
  ∧ (run 50 ['@', '1']).printedExpr = some (.Literal (.Number (strToRat "1")))
  ∧ (run 50 ['+']).scanFlag = false
  ∧ (run 50 ['+']).gateFlag = some true
  ∧ (run 50 ['+']).printedExpr = none := by
  refine ⟨?_, ?_, ?_, ?_, ?_, ?_⟩ <;> (unfold run; rw [← scan_tokensF_eq]; rfl)
